import Mathlib

/-!
Verification of the buildkite-ls language server core against its
natural-language specification.  The Go source is shallowly embedded:
Go strings are modelled as `String`/`List Char`, Go maps as lookup
functions or association lists, and each Go function of interest is
translated into an executable Lean definition bearing the same name.
-/

set_option autoImplicit false

namespace BuildkiteLS

/-! ## Go string primitives

Helpers mirroring the semantics of the Go `strings` standard library
operations used by the source, at the level of character lists. -/

/-- The set of characters Go's `unicode.IsSpace` accepts (the cutset of
`strings.TrimSpace`). -/
def isGoSpace (c : Char) : Bool :=
  c = ' ' ∨ c = '\t' ∨ c = '\n' ∨ c = (Char.ofNat 11) ∨ c = (Char.ofNat 12) ∨
  c = '\r' ∨ c = (Char.ofNat 0x85) ∨ c = (Char.ofNat 0xA0) ∨
  c = (Char.ofNat 0x1680) ∨ ((Char.ofNat 0x2000) ≤ c ∧ c ≤ (Char.ofNat 0x200A)) ∨
  c = (Char.ofNat 0x2028) ∨ c = (Char.ofNat 0x2029) ∨ c = (Char.ofNat 0x202F) ∨
  c = (Char.ofNat 0x205F) ∨ c = (Char.ofNat 0x3000)

/-- `strings.TrimSpace` on character lists. -/
def trimSpaceChars (s : List Char) : List Char :=
  ((s.dropWhile isGoSpace).reverse.dropWhile isGoSpace).reverse

/-- `strings.TrimSpace`. -/
def goTrimSpace (s : String) : String :=
  String.mk (trimSpaceChars s.data)

/-- `strings.HasPrefix` on character lists. -/
def hasPrefixChars : List Char → List Char → Bool
  | [], _ => true
  | _ :: _, [] => false
  | p :: ps, c :: cs => p = c && hasPrefixChars ps cs

/-- `strings.HasPrefix`. -/
def goHasPrefix (s pre : String) : Bool :=
  hasPrefixChars pre.data s.data

/-- `strings.HasSuffix`. -/
def goHasSuffix (s suf : String) : Bool :=
  hasPrefixChars suf.data.reverse s.data.reverse

/-- `strings.Contains` (substring containment) on character lists. -/
def containsSubChars (pat : List Char) : List Char → Bool
  | [] => pat = ([] : List Char)
  | c :: cs => hasPrefixChars pat (c :: cs) || containsSubChars pat cs

/-- `strings.Contains`. -/
def goContains (s sub : String) : Bool :=
  containsSubChars sub.data s.data

/-- First index of character `c`, mirroring `strings.Index(s, string(c))`
for a one-character needle. -/
def indexOfChar (c : Char) : List Char → Option Nat
  | [] => none
  | d :: ds => if d = c then some 0 else (indexOfChar c ds).map (· + 1)

/-- Split at the first occurrence of `c`: `strings.SplitN(s, c, 2)` yields
two parts exactly when `c` occurs. -/
def splitOnce (c : Char) : List Char → Option (List Char × List Char)
  | [] => none
  | d :: ds =>
    if d = c then some ([], ds)
    else (splitOnce c ds).map (fun p => (d :: p.1, p.2))

/-- `strings.TrimLeft(s, cutset)` on character lists. -/
def trimLeftChars (cutset : List Char) (s : List Char) : List Char :=
  s.dropWhile (fun c => c ∈ cutset)

/-- `strings.Trim(s, cutset)` on character lists. -/
def trimChars (cutset : List Char) (s : List Char) : List Char :=
  ((trimLeftChars cutset s).reverse.dropWhile (fun c => c ∈ cutset)).reverse

/-! ## DocumentManager (`internal/lsp`)

`splitLines` iterates runes: `\n` terminates a line, `\r` is skipped, and
after the loop the pending segment is appended when it is non-empty or no
line was produced at all. -/

/-- One iteration of the `splitLines` loop: state is the produced lines and
the current pending segment. -/
def splitLinesStep (acc : List (List Char) × List Char) (c : Char) :
    List (List Char) × List Char :=
  if c = '\n' then (acc.1 ++ [acc.2], [])
  else if c ≠ '\r' then (acc.1, acc.2 ++ [c])
  else acc

/-- `splitLines` on character lists (the loop body of
`internal/lsp.splitLines`). -/
def splitLinesChars (content : List Char) : List (List Char) :=
  if content = [] then []
  else if (content.foldl splitLinesStep ([], [])).2 ≠ [] ∨
      (content.foldl splitLinesStep ([], [])).1 = [] then
    (content.foldl splitLinesStep ([], [])).1 ++
      [(content.foldl splitLinesStep ([], [])).2]
  else (content.foldl splitLinesStep ([], [])).1

/-- `internal/lsp.splitLines`. -/
def splitLines (content : String) : List String :=
  (splitLinesChars content.data).map String.mk

/-- Joining with `'\n'`, used to state the splitting round-trip law. -/
def joinLines : List (List Char) → List Char
  | [] => []
  | [l] => l
  | l :: ls => l ++ '\n' :: joinLines ls

/-- A document cached by the `DocumentManager`. -/
structure Document where
  uri : String
  version : Int
  content : String
  lines : List String
  deriving DecidableEq, Repr

/-- The `DocumentManager`'s map from URI to document (Go
`map[protocol.DocumentURI]*Document`), modelled as a lookup function. -/
def DocumentManager := String → Option Document

/-- `NewDocumentManager`: the empty map. -/
def NewDocumentManager : DocumentManager := fun _ => none

/-- `DocumentManager.OpenDocument`. -/
def OpenDocument (dm : DocumentManager) (uri : String) (version : Int)
    (content : String) : DocumentManager :=
  fun u =>
    if u = uri then some ⟨uri, version, content, splitLines content⟩ else dm u

/-- `DocumentManager.UpdateDocument`: updates the stored document in place
when present, creates it otherwise. -/
def UpdateDocument (dm : DocumentManager) (uri : String) (version : Int)
    (content : String) : DocumentManager :=
  fun u =>
    if u = uri then
      match dm uri with
      | some doc => some ⟨doc.uri, version, content, splitLines content⟩
      | none => some ⟨uri, version, content, splitLines content⟩
    else dm u

/-- `DocumentManager.CloseDocument`. -/
def CloseDocument (dm : DocumentManager) (uri : String) : DocumentManager :=
  fun u => if u = uri then none else dm u

/-- `DocumentManager.GetDocument`. -/
def GetDocument (dm : DocumentManager) (uri : String) : Option Document :=
  dm uri

/-! ### Lemmas about `splitLines` -/

/-- A line is clean when it contains neither a newline nor a carriage
return. -/
def CleanLine (l : List Char) : Prop := '\n' ∉ l ∧ '\r' ∉ l

theorem splitLinesStep_clean {acc : List (List Char) × List Char} {c : Char}
    (h1 : ∀ l ∈ acc.1, CleanLine l) (h2 : CleanLine acc.2) :
    (∀ l ∈ (splitLinesStep acc c).1, CleanLine l) ∧
      CleanLine (splitLinesStep acc c).2 := by
  unfold splitLinesStep
  split
  · refine ⟨?_, by simp [CleanLine]⟩
    intro l hl
    rcases List.mem_append.mp hl with h | h
    · exact h1 l h
    · rw [List.mem_singleton] at h
      exact h ▸ h2
  · split
    · rename_i hn hr
      refine ⟨h1, ?_, ?_⟩
      · intro hmem
        rcases List.mem_append.mp hmem with h | h
        · exact h2.1 h
        · rw [List.mem_singleton] at h
          exact hn h.symm
      · intro hmem
        rcases List.mem_append.mp hmem with h | h
        · exact h2.2 h
        · rw [List.mem_singleton] at h
          exact hr h.symm
    · exact ⟨h1, h2⟩

theorem splitLines_foldl_clean (s : List Char) :
    ∀ acc : List (List Char) × List Char,
      (∀ l ∈ acc.1, CleanLine l) → CleanLine acc.2 →
      (∀ l ∈ (s.foldl splitLinesStep acc).1, CleanLine l) ∧
        CleanLine (s.foldl splitLinesStep acc).2 := by
  induction s with
  | nil => intro acc h1 h2; exact ⟨h1, h2⟩
  | cons c cs ih =>
    intro acc h1 h2
    have := splitLinesStep_clean (c := c) h1 h2
    simpa using ih (splitLinesStep acc c) this.1 this.2

theorem splitLinesChars_clean (s : List Char) :
    ∀ l ∈ splitLinesChars s, CleanLine l := by
  intro l hl
  unfold splitLinesChars at hl
  by_cases hs : s = []
  · simp [hs] at hl
  · rw [if_neg hs] at hl
    have base := splitLines_foldl_clean s ([], [])
      (by simp) (by simp [CleanLine])
    by_cases hc : (s.foldl splitLinesStep ([], [])).2 ≠ [] ∨
        (s.foldl splitLinesStep ([], [])).1 = []
    · rw [if_pos hc] at hl
      rcases List.mem_append.mp hl with h | h
      · exact base.1 l h
      · rw [List.mem_singleton] at h
        exact h ▸ base.2
    · rw [if_neg hc] at hl
      exact base.1 l hl

theorem joinLines_append_last (xs : List (List Char)) (a b : List Char) :
    joinLines (xs ++ [a ++ b]) =
      joinLines (xs ++ [a]) ++ b := by
  induction xs with
  | nil => simp [joinLines]
  | cons x xs ih =>
    cases xs with
    | nil => simp [joinLines]
    | cons y ys =>
      simp only [List.cons_append, joinLines] at ih ⊢
      simp [ih]

theorem joinLines_append_nl (xs : List (List Char)) (a : List Char)
    (h : xs ≠ []) :
    joinLines (xs ++ [a]) = joinLines xs ++ '\n' :: a := by
  induction xs with
  | nil => exact absurd rfl h
  | cons x xs ih =>
    cases xs with
    | nil => simp [joinLines]
    | cons y ys =>
      simp only [List.cons_append, joinLines] at ih ⊢
      simp [ih]

/-- Invariant carried through the `splitLines` fold: joining the produced
lines and the pending segment with newlines recovers the processed prefix
with all carriage returns removed. -/
theorem splitLines_foldl_join_inv (s : List Char) :
    ∀ (acc : List (List Char) × List Char) (processed : List Char),
      joinLines (acc.1 ++ [acc.2]) = processed.filter (fun c => c ≠ '\r') →
      joinLines ((s.foldl splitLinesStep acc).1 ++
          [(s.foldl splitLinesStep acc).2]) =
        (processed ++ s).filter (fun c => c ≠ '\r') := by
  induction s with
  | nil => intro acc processed h; simpa using h
  | cons c cs ih =>
    intro acc processed h
    simp only [List.foldl_cons]
    have step :
        joinLines ((splitLinesStep acc c).1 ++ [(splitLinesStep acc c).2]) =
          (processed ++ [c]).filter (fun c => c ≠ '\r') := by
      unfold splitLinesStep
      split
      · rename_i hc
        subst hc
        have hne : acc.1 ++ [acc.2] ≠ [] := by simp
        simp only [List.filter_append]
        rw [joinLines_append_nl _ _ hne, h]
        simp
      · split
        · rename_i hn hr
          simp only [List.filter_append]
          rw [show acc.2 ++ [c] = acc.2 ++ [c] from rfl,
            joinLines_append_last acc.1 acc.2 [c], h]
          simp [hr]
        · rename_i hn hr
          push_neg at hr
          subst hr
          simp only [List.filter_append]
          rw [h]
          simp
    have := ih (splitLinesStep acc c) (processed ++ [c]) step
    simpa using this

/-- `splitLines` on an input with an explicit trailing newline: the final
pending segment is empty and is not appended, and joining the result
recovers the input (without the trailing newline) with `\r` dropped. -/
theorem splitLinesChars_append_newline (s : List Char) :
    splitLinesChars (s ++ ['\n']) =
      (s.foldl splitLinesStep ([], [])).1 ++
        [(s.foldl splitLinesStep ([], [])).2] := by
  unfold splitLinesChars
  have hne : s ++ ['\n'] ≠ [] := by simp
  rw [if_neg hne]
  have hfold : (s ++ ['\n']).foldl splitLinesStep ([], []) =
      ((s.foldl splitLinesStep ([], [])).1 ++
        [(s.foldl splitLinesStep ([], [])).2], []) := by
    rw [List.foldl_append]
    simp [splitLinesStep]
  rw [hfold]
  simp

theorem joinLines_splitLines_newline (s : List Char) :
    joinLines (splitLinesChars (s ++ ['\n'])) =
      s.filter (fun c => c ≠ '\r') := by
  rw [splitLinesChars_append_newline]
  have := splitLines_foldl_join_inv s ([], []) []
    (by simp [joinLines])
  simpa using this

/-- The number of produced lines equals the number of newline terminators:
an explicit trailing newline adds no empty final element. -/
theorem splitLines_foldl_length_inv (s : List Char) :
    ∀ (acc : List (List Char) × List Char) (processed : List Char),
      acc.1.length = (processed.filter (fun c => c = '\n')).length →
      (s.foldl splitLinesStep acc).1.length =
        ((processed ++ s).filter (fun c => c = '\n')).length := by
  induction s with
  | nil => intro acc processed h; simpa using h
  | cons c cs ih =>
    intro acc processed h
    simp only [List.foldl_cons]
    have step : (splitLinesStep acc c).1.length =
        ((processed ++ [c]).filter (fun c => c = '\n')).length := by
      unfold splitLinesStep
      split
      · rename_i hc
        subst hc
        simp [List.filter_append, h]
      · split <;> · rename_i hn _; simp [List.filter_append, h, hn]
    have := ih (splitLinesStep acc c) (processed ++ [c]) step
    simpa using this

theorem splitLinesChars_newline_length (s : List Char) :
    (splitLinesChars (s ++ ['\n'])).length =
      (s.filter (fun c => c = '\n')).length + 1 := by
  rw [splitLinesChars_append_newline]
  have := splitLines_foldl_length_inv s ([], []) [] (by simp)
  simp only [List.nil_append] at this
  simp [this]

/-- C1.  The line-splitting function satisfies the five listed laws; in
general every produced line is free of `\n` and `\r` (so `\n` terminates
lines and `\r` is dropped), joining the lines of `s ++ "\n"` with newlines
recovers `s` with carriage returns removed, and the number of lines of
`s ++ "\n"` is the number of newlines of `s` plus one (the explicit
trailing newline adds no empty final element); the empty string yields the
empty sequence. -/
theorem splitLines_spec :
    splitLines "" = [] ∧
    splitLines "a\n" = ["a"] ∧
    splitLines "\n" = [""] ∧
    splitLines "a\r\nb" = ["a", "b"] ∧
    splitLines "a\n\nb" = ["a", "", "b"] ∧
    (∀ s : List Char, ∀ l ∈ splitLinesChars s, '\n' ∉ l ∧ '\r' ∉ l) ∧
    (∀ s : List Char,
      joinLines (splitLinesChars (s ++ ['\n'])) =
        s.filter (fun c => c ≠ '\r')) ∧
    (∀ s : List Char,
      (splitLinesChars (s ++ ['\n'])).length =
        (s.filter (fun c => c = '\n')).length + 1) := by
  refine ⟨by decide, by decide, by decide, by decide, by decide, ?_, ?_, ?_⟩
  · intro s l hl
    exact splitLinesChars_clean s l hl
  · exact joinLines_splitLines_newline
  · exact splitLinesChars_newline_length

/-- Witness for C1: the general conjuncts evaluated at a concrete input. -/
theorem splitLines_spec_witness :
    ('\n' ∉ ['a'] ∧ '\r' ∉ ['a']) ∧
      joinLines (splitLinesChars (['a'] ++ ['\n'])) =
        ['a'].filter (fun c => c ≠ '\r') :=
  ⟨splitLines_spec.2.2.2.2.2.1 ['a', '\n'] ['a'] (by decide),
   splitLines_spec.2.2.2.2.2.2.1 ['a']⟩

/-! ## Context analyzer (`internal/context`) -/

/-- `context.CompletionContext`: the kind of completion context. -/
inductive CompletionContext where
  | unknown
  | topLevel
  | step
  | plugins
  | pluginConfig
  deriving DecidableEq, Repr

/-- `context.ContextInfo`. -/
structure ContextInfo where
  type : CompletionContext
  indentLevel : Nat
  inArray : Bool
  arrayContext : String
  parentKeys : List String
  currentKey : String
  pluginName : String
  nearestStepIndex : Int
  deriving DecidableEq, Repr

/-- `context.PositionContext`. -/
structure PositionContext where
  uri : String
  posLine : Nat
  posCharacter : Nat
  currentLine : String
  charIndex : Nat
  contextLines : List String
  fullContent : String
  deriving DecidableEq, Repr

/-- `context.KeyInfo`. -/
structure KeyInfo where
  key : String
  indentLevel : Nat
  isArray : Bool
  hasValue : Bool
  deriving DecidableEq, Repr

/-- `context.getIndentLevel`: spaces count 1, tabs count 2, the first other
character stops the scan. -/
def getIndentLevelChars : List Char → Nat
  | ' ' :: rest => 1 + getIndentLevelChars rest
  | '\t' :: rest => 2 + getIndentLevelChars rest
  | _ => 0

/-- `context.getIndentLevel` on strings. -/
def getIndentLevel (line : String) : Nat :=
  getIndentLevelChars line.data

/-- `context.popKeysAtOrAboveIndent`: keep only keys strictly shallower
than the given indent. -/
def popKeysAtOrAboveIndent (keyStack : List KeyInfo) (indent : Nat) :
    List KeyInfo :=
  keyStack.filter (fun k => k.indentLevel < indent)

/-- `context.parseKeyFromLine`. -/
def parseKeyFromLine (line : String) (indent : Nat) : Option KeyInfo :=
  let trimmed := trimSpaceChars line.data
  if hasPrefixChars ['-', ' '] trimmed then
    let arrayItemContent := trimSpaceChars (trimmed.drop 2)
    match indexOfChar ':' arrayItemContent with
    | some colonIndex =>
      let key := trimSpaceChars (arrayItemContent.take colonIndex)
      let afterColon := trimSpaceChars (arrayItemContent.drop (colonIndex + 1))
      some ⟨String.mk key, indent,
        afterColon = ([] : List Char) || afterColon = ['[', ']'],
        afterColon ≠ ([] : List Char) && afterColon ≠ ['[', ']']⟩
    | none => none
  else
    match indexOfChar ':' trimmed with
    | some colonIndex =>
      let key := trimSpaceChars (trimmed.take colonIndex)
      let afterColon := trimSpaceChars (trimmed.drop (colonIndex + 1))
      some ⟨String.mk key, indent,
        afterColon = ([] : List Char) || afterColon = ['[', ']'],
        afterColon ≠ ([] : List Char) && afterColon ≠ ['[', ']']⟩
    | none => none

/-- The top-down scan over the key stack inside
`context.determineContextFromStack`: the list argument is the stack from
top to bottom and `above` is the entry just above the current one. -/
def scanKeyStack (ctx : ContextInfo) (above : Option KeyInfo) :
    List KeyInfo → Option ContextInfo
  | [] => none
  | k :: rest =>
    if k.key = "plugins" then
      match above with
      | some a =>
        some { ctx with type := .pluginConfig, inArray := true,
                        arrayContext := "plugins", pluginName := a.key }
      | none =>
        some { ctx with type := .plugins, inArray := true,
                        arrayContext := "plugins" }
    else if k.key = "steps" then some { ctx with type := .step }
    else scanKeyStack ctx (some k) rest

/-- `context.determineContextFromStack`.  (`currentLine` and `charIndex`
are accepted but unused, as in the source.) -/
def determineContextFromStack (ctx : ContextInfo) (keyStack : List KeyInfo)
    (_currentLine : String) (_charIndex : Nat) : ContextInfo :=
  let ctx := { ctx with parentKeys := keyStack.map KeyInfo.key }
  if keyStack = [] then { ctx with type := .topLevel }
  else
    match scanKeyStack ctx none keyStack.reverse with
    | some result => result
    | none =>
      if keyStack.length ≤ 1 then { ctx with type := .topLevel }
      else { ctx with type := .step }

/-- Body of the per-line loop of `context.analyzeYAMLStructure` for a
committed (non-current, non-blank, non-comment) line. -/
def processCommitted (ctx : ContextInfo) (keyStack : List KeyInfo)
    (line : String) : ContextInfo × List KeyInfo :=
  let trimmed := trimSpaceChars line.data
  let indent := getIndentLevel line
  let keyStack := popKeysAtOrAboveIndent keyStack indent
  let (ctx, keyStack) :=
    match parseKeyFromLine line indent with
    | some keyInfo =>
      (if keyInfo.key = "steps" && keyInfo.isArray then
        { ctx with nearestStepIndex := 0 }
      else ctx, keyStack ++ [keyInfo])
    | none => (ctx, keyStack)
  let ctx :=
    if containsSubChars ['-', ' '] trimmed && keyStack ≠ [] then
      if (keyStack.getLast?).map KeyInfo.key = some "steps" then
        { ctx with nearestStepIndex := ctx.nearestStepIndex + 1 }
      else ctx
    else ctx
  (ctx, keyStack)

/-- Body of the per-line loop of `context.analyzeYAMLStructure` for the
current (last) line: record the indent, handle array items, and derive the
final context from the stack. -/
def processCurrent (ctx : ContextInfo) (keyStack : List KeyInfo)
    (line currentLine : String) (charIndex : Nat) : ContextInfo :=
  let trimmed := trimSpaceChars line.data
  let indent := getIndentLevel line
  let keyStack := popKeysAtOrAboveIndent keyStack indent
  let ctx := { ctx with indentLevel := indent }
  let ctx :=
    if containsSubChars ['-', ' '] trimmed && keyStack ≠ [] then
      if (keyStack.getLast?).map KeyInfo.key = some "steps" then
        { ctx with nearestStepIndex := ctx.nearestStepIndex + 1 }
      else ctx
    else ctx
  determineContextFromStack ctx keyStack currentLine charIndex

/-- The per-line loop of `context.analyzeYAMLStructure`; blank and comment
lines are skipped unless they are the current (last) line. -/
def analyzeLoop (ctx : ContextInfo) (keyStack : List KeyInfo)
    (currentLine : String) (charIndex : Nat) : List String → ContextInfo
  | [] => ctx
  | [line] => processCurrent ctx keyStack line currentLine charIndex
  | line :: rest =>
    let trimmed := trimSpaceChars line.data
    if trimmed = ([] : List Char) || hasPrefixChars ['#'] trimmed then
      analyzeLoop ctx keyStack currentLine charIndex rest
    else
      let s := processCommitted ctx keyStack line
      analyzeLoop s.1 s.2 currentLine charIndex rest

/-- `context.analyzeYAMLStructure`: the initial context has kind Unknown,
no parent keys and `NearestStepIndex = -1`. -/
def analyzeYAMLStructure (lines : List String) (currentLine : String)
    (charIndex : Nat) : ContextInfo :=
  analyzeLoop ⟨.unknown, 0, false, "", [], "", "", -1⟩ [] currentLine
    charIndex lines

/-- `context.Analyzer.AnalyzeContext`; a `nil` position context is modelled
as `none` and yields a zero-valued `ContextInfo` with kind Unknown. -/
def AnalyzeContext : Option PositionContext → ContextInfo
  | none => ⟨.unknown, 0, false, "", [], "", "", 0⟩
  | some posCtx =>
    analyzeYAMLStructure posCtx.contextLines posCtx.currentLine
      posCtx.charIndex

/-! ### Lemmas about the analyzer -/

theorem scanKeyStack_type_mem (stack : List KeyInfo) :
    ∀ (ctx : ContextInfo) (above : Option KeyInfo) (result : ContextInfo),
      scanKeyStack ctx above stack = some result →
      result.type ∈
        [CompletionContext.step, CompletionContext.plugins,
          CompletionContext.pluginConfig] := by
  induction stack with
  | nil => intro ctx above result h; simp [scanKeyStack] at h
  | cons k rest ih =>
    intro ctx above result h
    unfold scanKeyStack at h
    split at h
    · cases above with
      | some a => cases h; simp
      | none => cases h; simp
    · split at h
      · cases h; simp
      · exact ih ctx (some k) result h

theorem determineContextFromStack_type_mem (ctx : ContextInfo)
    (keyStack : List KeyInfo) (currentLine : String) (charIndex : Nat) :
    (determineContextFromStack ctx keyStack currentLine charIndex).type ∈
      [CompletionContext.topLevel, CompletionContext.step,
        CompletionContext.plugins, CompletionContext.pluginConfig] := by
  unfold determineContextFromStack
  split
  · simp
  · rcases hscan : scanKeyStack
        { ctx with parentKeys := keyStack.map KeyInfo.key } none
        keyStack.reverse with _ | result
    · simp only [hscan]
      split <;> simp
    · simp only [hscan]
      have := scanKeyStack_type_mem keyStack.reverse _ none result hscan
      simp at this
      rcases this with h | h | h <;> simp [h]

theorem analyzeLoop_type_mem (lines : List String) :
    ∀ (ctx : ContextInfo) (keyStack : List KeyInfo) (currentLine : String)
      (charIndex : Nat), lines ≠ [] →
      (analyzeLoop ctx keyStack currentLine charIndex lines).type ∈
        [CompletionContext.topLevel, CompletionContext.step,
          CompletionContext.plugins, CompletionContext.pluginConfig] := by
  induction lines with
  | nil => intro _ _ _ _ h; exact absurd rfl h
  | cons line rest ih =>
    intro ctx keyStack currentLine charIndex _
    cases rest with
    | nil =>
      show (processCurrent ctx keyStack line currentLine charIndex).type ∈ _
      unfold processCurrent
      exact determineContextFromStack_type_mem ..
    | cons l2 ls =>
      show (analyzeLoop ctx keyStack currentLine charIndex
        (line :: l2 :: ls)).type ∈ _
      unfold analyzeLoop
      dsimp only
      split
      · exact ih _ _ _ _ (by simp)
      · exact ih _ _ _ _ (by simp)

/-- A position context whose context lines are empty (the claim's "empty
input"). -/
def analyzerEmptyPC : PositionContext :=
  ⟨"file:///p/.buildkite/pipeline.yml", 0, 0, "", 0, [], ""⟩

/-- C3 counterexample.  A non-nil position context with an empty
context-lines list yields kind Unknown, not TopLevel: the per-line loop
never runs, so the initial Unknown context is returned for a non-nil
input. -/
theorem analyzeContext_empty_counterexample :
    (AnalyzeContext (some analyzerEmptyPC)).type = CompletionContext.unknown ∧
      (AnalyzeContext (some analyzerEmptyPC)).type ≠
        CompletionContext.topLevel := by
  constructor <;> decide

/-- C3 (amended).  A nil input yields Unknown; a non-nil input yields
Unknown exactly when its context-lines list is empty; an empty document
(a single empty context line) yields TopLevel; and every non-nil input
with a nonempty context-lines list yields one of TopLevel, Step, Plugins,
PluginConfig. -/
theorem analyzeContext_kinds :
    (AnalyzeContext none).type = CompletionContext.unknown ∧
    (∀ pc : PositionContext,
      (AnalyzeContext (some pc)).type = CompletionContext.unknown ↔
        pc.contextLines = []) ∧
    (∀ pc : PositionContext, pc.contextLines = [""] →
      (AnalyzeContext (some pc)).type = CompletionContext.topLevel) ∧
    (∀ pc : PositionContext, pc.contextLines ≠ [] →
      (AnalyzeContext (some pc)).type ∈
        [CompletionContext.topLevel, CompletionContext.step,
          CompletionContext.plugins, CompletionContext.pluginConfig]) := by
  refine ⟨rfl, ?_, ?_, ?_⟩
  · intro pc
    constructor
    · intro h
      by_contra hne
      have := analyzeLoop_type_mem pc.contextLines
        ⟨.unknown, 0, false, "", [], "", "", -1⟩ [] pc.currentLine
        pc.charIndex hne
      rw [show analyzeLoop ⟨.unknown, 0, false, "", [], "", "", -1⟩ []
          pc.currentLine pc.charIndex pc.contextLines =
          AnalyzeContext (some pc) from rfl, h] at this
      simp at this
    · intro h
      simp [AnalyzeContext, analyzeYAMLStructure, h, analyzeLoop]
  · intro pc h
    show (analyzeYAMLStructure pc.contextLines pc.currentLine
      pc.charIndex).type = _
    rw [h]
    rfl
  · intro pc h
    exact analyzeLoop_type_mem pc.contextLines
      ⟨.unknown, 0, false, "", [], "", "", -1⟩ [] pc.currentLine
      pc.charIndex h

/-- Witness for C3 (amended): the quantified conjuncts applied at concrete
inputs. -/
theorem analyzeContext_kinds_witness :
    ((AnalyzeContext (some ⟨"u", 0, 0, "", 0, [""], ""⟩)).type =
        CompletionContext.topLevel) ∧
      (AnalyzeContext (some ⟨"u", 0, 0, "steps:", 0, ["steps:"], "steps:"⟩)).type ∈
        [CompletionContext.topLevel, CompletionContext.step,
          CompletionContext.plugins, CompletionContext.pluginConfig] :=
  ⟨analyzeContext_kinds.2.2.1 ⟨"u", 0, 0, "", 0, [""], ""⟩ rfl,
   analyzeContext_kinds.2.2.2 ⟨"u", 0, 0, "steps:", 0, ["steps:"], "steps:"⟩
     (by decide)⟩

/-- C2.  Opening then updating a document stores the updated version, text
and line index, and closing removes the document. -/
theorem documentManager_open_update_close (dm : DocumentManager)
    (d : String) (v0 v : Int) (t0 t : String) :
    GetDocument (UpdateDocument (OpenDocument dm d v0 t0) d v t) d =
        some ⟨d, v, t, splitLines t⟩ ∧
      (∀ (dm' : DocumentManager) (u : String),
        GetDocument (CloseDocument dm' u) u = none) := by
  constructor
  · simp [GetDocument, UpdateDocument, OpenDocument]
  · intro dm' u
    simp [GetDocument, CloseDocument]

/-! ## Pipeline schema validation (`internal/schema`) -/

/-- A `gojsonschema.ResultError` as consumed by `Loader.ValidateJSON`: only
its type, field path and description are inspected. -/
structure ResultError where
  type : String
  field : String
  description : String
  deriving DecidableEq, Repr

/-- The fixed `errorPriority` table of `Loader.ValidateJSON`; `none` for
types missing from the table. -/
def errorPriorityTable (t : String) : Option Nat :=
  if t = "additional_property_not_allowed" then some 1
  else if t = "required" then some 2
  else if t = "invalid_type" then some 3
  else if t = "enum" then some 4
  else if t = "string_gte" then some 5
  else if t = "string_lte" then some 6
  else if t = "array_min_items" then some 7
  else if t = "array_max_items" then some 8
  else if t = "number_gte" then some 9
  else if t = "number_lte" then some 10
  else none

/-- The effective priority of an error type: table value, or 999 for all
other types. -/
def errorPriority (t : String) : Nat :=
  (errorPriorityTable t).getD 999

/-- The selection loop of `Loader.ValidateJSON`: starting from the first
error as fallback and `highestPriority = 999`, every error whose type is in
the table and whose priority is strictly smaller than the current best
replaces it. -/
def selectLoop (best : ResultError) (hp : Nat) :
    List ResultError → ResultError × Nat
  | [] => (best, hp)
  | e :: rest =>
    match errorPriorityTable e.type with
    | some p => if p < hp then selectLoop e p rest else selectLoop best hp rest
    | none => selectLoop best hp rest

/-- The primary-error choice of `Loader.ValidateJSON` over a non-empty
error list (`bestError`). -/
def selectPrimaryError : List ResultError → Option ResultError
  | [] => none
  | e :: rest => some (selectLoop e 999 (e :: rest)).1

/-- The smallest effective priority occurring in a list of errors. -/
def minErrorPriority (l : List ResultError) : Nat :=
  l.foldr (fun e m => min (errorPriority e.type) m) 999

theorem errorPriority_le (t : String) : errorPriority t ≤ 999 := by
  unfold errorPriority errorPriorityTable
  repeat' split
  all_goals decide

theorem selectLoop_cons (best : ResultError) (hp : Nat) (e : ResultError)
    (rest : List ResultError) :
    selectLoop best hp (e :: rest) =
      match errorPriorityTable e.type with
      | some p =>
        if p < hp then selectLoop e p rest else selectLoop best hp rest
      | none => selectLoop best hp rest := rfl

/-- The fold of `selectLoop` expressed with effective priorities. -/
def foldBest (best : ResultError) : List ResultError → ResultError
  | [] => best
  | e :: rest =>
    foldBest (if errorPriority e.type < errorPriority best.type then e
      else best) rest

theorem selectLoop_eq_foldBest (l : List ResultError) :
    ∀ best : ResultError,
      selectLoop best (errorPriority best.type) l =
        (foldBest best l, errorPriority (foldBest best l).type) := by
  induction l with
  | nil => intro best; simp [selectLoop, foldBest]
  | cons e rest ih =>
    intro best
    rw [selectLoop_cons]
    rcases htab : errorPriorityTable e.type with _ | p
    · simp only [htab]
      have hpe : errorPriority e.type = 999 := by
        simp [errorPriority, htab]
      have hnlt : ¬ errorPriority e.type < errorPriority best.type := by
        have := errorPriority_le best.type
        omega
      simp only [foldBest, if_neg hnlt]
      exact ih best
    · simp only [htab]
      have hpe : errorPriority e.type = p := by
        simp [errorPriority, htab]
      by_cases hlt : p < errorPriority best.type
      · rw [if_pos hlt]
        have hlt2 : errorPriority e.type < errorPriority best.type :=
          hpe ▸ hlt
        simp only [foldBest, if_pos hlt2]
        have := ih e
        rw [hpe] at this
        exact this
      · rw [if_neg hlt]
        have hnlt : ¬ errorPriority e.type < errorPriority best.type :=
          hpe ▸ hlt
        simp only [foldBest, if_neg hnlt]
        exact ih best

theorem selectLoop_start (e : ResultError) (rest : List ResultError) :
    selectLoop e 999 (e :: rest) =
      selectLoop e (errorPriority e.type) rest := by
  rw [selectLoop_cons]
  rcases htab : errorPriorityTable e.type with _ | p
  · simp only [htab]
    have hpe : errorPriority e.type = 999 := by simp [errorPriority, htab]
    rw [hpe]
  · simp only [htab]
    have hpe : errorPriority e.type = p := by simp [errorPriority, htab]
    have hle : p ≤ 10 := by
      unfold errorPriorityTable at htab
      repeat' split at htab
      all_goals simp at htab
      all_goals omega
    rw [if_pos (by omega), hpe]

theorem minErrorPriority_cons (e : ResultError) (l : List ResultError) :
    minErrorPriority (e :: l) =
      min (errorPriority e.type) (minErrorPriority l) := rfl

theorem minErrorPriority_le (l : List ResultError) : minErrorPriority l ≤ 999 := by
  induction l with
  | nil => simp [minErrorPriority]
  | cons e rest ih =>
    rw [minErrorPriority_cons]
    omega

/-- The fold keeps the earliest error achieving the minimum priority. -/
theorem find?_min_eq_foldBest (l : List ResultError) :
    ∀ best : ResultError,
      (best :: l).find?
          (fun e => errorPriority e.type == minErrorPriority (best :: l)) =
        some (foldBest best l) := by
  induction l with
  | nil =>
    intro best
    have h999 : minErrorPriority ([] : List ResultError) = 999 := rfl
    have hmin : minErrorPriority [best] = errorPriority best.type := by
      have := errorPriority_le best.type
      rw [minErrorPriority_cons, h999]
      omega
    rw [List.find?_cons_of_pos
      (p := fun er : ResultError => errorPriority er.type == minErrorPriority [best]) _
      (by simp [hmin])]
    rfl
  | cons e rest ih =>
    intro best
    have hminr := minErrorPriority_le rest
    by_cases hlt : errorPriority e.type < errorPriority best.type
    · have hb' : foldBest best (e :: rest) = foldBest e rest := by
        simp [foldBest, hlt]
      have hmin : minErrorPriority (best :: e :: rest) =
          minErrorPriority (e :: rest) := by
        simp only [minErrorPriority_cons]
        omega
      have hpredbest : ¬ (errorPriority best.type ==
          minErrorPriority (best :: e :: rest)) = true := by
        simp only [beq_iff_eq, hmin, minErrorPriority_cons]
        omega
      rw [hb', List.find?_cons_of_neg
        (p := fun er : ResultError => errorPriority er.type ==
          minErrorPriority (best :: e :: rest)) _ hpredbest, hmin]
      exact ih e
    · have hb' : foldBest best (e :: rest) = foldBest best rest := by
        simp [foldBest, hlt]
      have hmin : minErrorPriority (best :: e :: rest) =
          minErrorPriority (best :: rest) := by
        simp only [minErrorPriority_cons]
        omega
      rw [hb', hmin]
      by_cases hpb : errorPriority best.type = minErrorPriority (best :: rest)
      · rw [List.find?_cons_of_pos
          (p := fun er : ResultError => errorPriority er.type ==
            minErrorPriority (best :: rest)) _ (by simp [hpb])]
        have hprev := ih best
        rw [List.find?_cons_of_pos
          (p := fun er : ResultError => errorPriority er.type ==
            minErrorPriority (best :: rest)) _ (by simp [hpb])] at hprev
        exact hprev
      · have hpe : ¬ errorPriority e.type =
            minErrorPriority (best :: rest) := by
          simp only [minErrorPriority_cons] at hpb ⊢
          omega
        rw [List.find?_cons_of_neg
          (p := fun er : ResultError => errorPriority er.type ==
            minErrorPriority (best :: rest)) _ (by simp [hpb]),
          List.find?_cons_of_neg
          (p := fun er : ResultError => errorPriority er.type ==
            minErrorPriority (best :: rest)) _ (by simp [hpe])]
        have hprev := ih best
        rw [List.find?_cons_of_neg
          (p := fun er : ResultError => errorPriority er.type ==
            minErrorPriority (best :: rest)) _ (by simp [hpb])] at hprev
        exact hprev

/-- C4.  `ValidateJSON` chooses as primary error the first error (in
natural iteration order) whose type has the smallest effective priority,
where the effective priority is the fixed table value
(`additional_property_not_allowed = 1 … number_lte = 10`) and 999 for every
other type. -/
theorem validateJSON_primary_error (errors : List ResultError)
    (h : errors ≠ []) :
    errors.find?
        (fun e => errorPriority e.type == minErrorPriority errors) =
      selectPrimaryError errors := by
  cases errors with
  | nil => exact absurd rfl h
  | cons e rest =>
    show _ = some (selectLoop e 999 (e :: rest)).1
    rw [selectLoop_start, selectLoop_eq_foldBest]
    exact find?_min_eq_foldBest rest e

/-- Witness for C4: on a list whose second element has the strictly
smallest priority, that element is chosen. -/
theorem validateJSON_primary_error_witness :
    ([⟨"number_lte", "steps", "d1"⟩, ⟨"required", "steps", "d2"⟩,
        ⟨"required", "env", "d3"⟩] : List ResultError).find?
        (fun e => errorPriority e.type ==
          minErrorPriority [⟨"number_lte", "steps", "d1"⟩,
            ⟨"required", "steps", "d2"⟩, ⟨"required", "env", "d3"⟩]) =
      selectPrimaryError [⟨"number_lte", "steps", "d1"⟩,
        ⟨"required", "steps", "d2"⟩, ⟨"required", "env", "d3"⟩] :=
  validateJSON_primary_error _ (by simp)


/-! ## Plugin registry (`internal/plugins`) -/

/-- `plugins.ParsedPluginRef`. -/
structure ParsedPluginRef where
  org : String
  name : String
  version : String
  fullRef : String
  deriving DecidableEq, Repr

/-- `plugins.ParsePluginReference`: split on the first `#` into plugin part
and version (default `latest`), then on the first `/` into org and name
(default org `buildkite-plugins`); the original reference is stored as
`FullRef`. -/
def ParsePluginReference (ref : String) : Option ParsedPluginRef :=
  if ref = "" then none
  else
    let parts :=
      match splitOnce '#' ref.data with
      | some p => (p.1, String.mk p.2)
      | none => (ref.data, "latest")
    match splitOnce '/' parts.1 with
    | some q => some ⟨String.mk q.1, String.mk q.2, parts.2, ref⟩
    | none => some ⟨"buildkite-plugins", String.mk parts.1, parts.2, ref⟩

/-- `plugins.ParsedPluginRef.GetRepositoryURL`. -/
def GetRepositoryURL (p : ParsedPluginRef) : String :=
  "https://github.com/" ++ p.org ++ "/" ++ p.name ++ "-buildkite-plugin"

/-- `plugins.ParsedPluginRef.GetAllSchemaURLs`: version-pinned `plugin.yml`
first, then the `main` branch, then the `master` branch. -/
def GetAllSchemaURLs (p : ParsedPluginRef) : List String :=
  ["https://raw.githubusercontent.com/" ++ p.org ++ "/" ++ p.name ++
      "-buildkite-plugin/" ++ p.version ++ "/plugin.yml",
    "https://raw.githubusercontent.com/" ++ p.org ++ "/" ++ p.name ++
      "-buildkite-plugin/main/plugin.yml",
    "https://raw.githubusercontent.com/" ++ p.org ++ "/" ++ p.name ++
      "-buildkite-plugin/master/plugin.yml"]

theorem splitOnce_eq_none {c : Char} {l : List Char} (h : c ∉ l) :
    splitOnce c l = none := by
  induction l with
  | nil => rfl
  | cons d ds ih =>
    unfold splitOnce
    rw [if_neg (by simp at h; exact fun hh => h.1 hh.symm)]
    rw [ih (by simp at h; exact h.2)]
    rfl

theorem splitOnce_append {c : Char} (a : List Char) (b : List Char)
    (h : c ∉ a) : splitOnce c (a ++ c :: b) = some (a, b) := by
  induction a with
  | nil => simp [splitOnce]
  | cons d ds ih =>
    unfold splitOnce
    rw [List.cons_append]
    simp only
    rw [if_neg (by simp at h; exact fun hh => h.1 hh.symm)]
    rw [ih (by simp at h; exact h.2)]
    rfl

theorem mk_ne_empty {l : List Char} (h : l ≠ []) : String.mk l ≠ "" := by
  intro hh
  rw [show ("" : String) = String.mk [] from rfl] at hh
  exact h (by cases hh; rfl)

/-- C7.  Plugin-reference parsing: `name`/`name#version` shapes get the
implicit org `buildkite-plugins`, `org/name` shapes keep the given org; a
missing version yields `latest`; the stored full reference is exactly the
input; and the candidate schema URLs are, in order, the version-pinned
`plugin.yml`, then `main/plugin.yml`, then `master/plugin.yml` under
`https://raw.githubusercontent.com/{org}/{name}-buildkite-plugin`. -/
theorem parsePluginReference_spec :
    ParsePluginReference "mcncl/foo#v3.0.0" =
        some ⟨"mcncl", "foo", "v3.0.0", "mcncl/foo#v3.0.0"⟩ ∧
    GetAllSchemaURLs ⟨"mcncl", "foo", "v3.0.0", "mcncl/foo#v3.0.0"⟩ =
        ["https://raw.githubusercontent.com/mcncl/foo-buildkite-plugin/v3.0.0/plugin.yml",
          "https://raw.githubusercontent.com/mcncl/foo-buildkite-plugin/main/plugin.yml",
          "https://raw.githubusercontent.com/mcncl/foo-buildkite-plugin/master/plugin.yml"] ∧
    (∀ (ref : String) (p : ParsedPluginRef),
      ParsePluginReference ref = some p →
        p.fullRef = ref ∧
        GetAllSchemaURLs p =
          ["https://raw.githubusercontent.com/" ++ p.org ++ "/" ++ p.name ++
              "-buildkite-plugin/" ++ p.version ++ "/plugin.yml",
            "https://raw.githubusercontent.com/" ++ p.org ++ "/" ++ p.name ++
              "-buildkite-plugin/main/plugin.yml",
            "https://raw.githubusercontent.com/" ++ p.org ++ "/" ++ p.name ++
              "-buildkite-plugin/master/plugin.yml"]) ∧
    (∀ ref : String, ref ≠ "" → '#' ∉ ref.data → '/' ∉ ref.data →
      ParsePluginReference ref =
        some ⟨"buildkite-plugins", ref, "latest", ref⟩) ∧
    (∀ n v : List Char, '#' ∉ n → '/' ∉ n →
      ParsePluginReference (String.mk (n ++ '#' :: v)) =
        some ⟨"buildkite-plugins", String.mk n, String.mk v,
          String.mk (n ++ '#' :: v)⟩) ∧
    (∀ o r : List Char, '/' ∉ o → '#' ∉ o → '#' ∉ r →
      ParsePluginReference (String.mk (o ++ '/' :: r)) =
        some ⟨String.mk o, String.mk r, "latest",
          String.mk (o ++ '/' :: r)⟩) ∧
    (∀ o n v : List Char, '/' ∉ o → '#' ∉ o → '#' ∉ n →
      ParsePluginReference (String.mk (o ++ '/' :: n ++ '#' :: v)) =
        some ⟨String.mk o, String.mk n, String.mk v,
          String.mk (o ++ '/' :: n ++ '#' :: v)⟩) := by
  refine ⟨by decide, by decide, ?_, ?_, ?_, ?_, ?_⟩
  · intro ref p h
    refine ⟨?_, rfl⟩
    unfold ParsePluginReference at h
    split at h
    · cases h
    · split at h
      all_goals (try dsimp only at h)
      all_goals split at h
      all_goals (injection h with h2; rw [← h2])
  · intro ref hne hh hs
    unfold ParsePluginReference
    rw [if_neg hne, splitOnce_eq_none hh]
    simp only
    rw [splitOnce_eq_none hs]
  · intro n v hh hs
    unfold ParsePluginReference
    rw [if_neg (mk_ne_empty (by simp))]
    rw [show (String.mk (n ++ '#' :: v)).data = n ++ '#' :: v from rfl]
    rw [splitOnce_append n v hh]
    simp only
    rw [splitOnce_eq_none hs]
  · intro o r hs ho hr
    unfold ParsePluginReference
    rw [if_neg (mk_ne_empty (by simp))]
    rw [show (String.mk (o ++ '/' :: r)).data = o ++ '/' :: r from rfl]
    rw [splitOnce_eq_none (by simp [ho, hr])]
    simp only
    rw [splitOnce_append o r hs]
  · intro o n v hs ho hn
    unfold ParsePluginReference
    rw [if_neg (mk_ne_empty (by simp))]
    rw [show (String.mk (o ++ '/' :: n ++ '#' :: v)).data =
      (o ++ '/' :: n) ++ '#' :: v from by simp]
    rw [splitOnce_append (o ++ '/' :: n) v (by simp [ho, hn])]
    simp only
    rw [splitOnce_append o n hs]

/-- Witness for C7: the quantified conjuncts applied at concrete
references. -/
theorem parsePluginReference_spec_witness :
    (ParsePluginReference "docker" =
        some ⟨"buildkite-plugins", "docker", "latest", "docker"⟩) ∧
      (⟨"mcncl", "foo", "v3.0.0", "mcncl/foo#v3.0.0"⟩ :
          ParsedPluginRef).fullRef = "mcncl/foo#v3.0.0" :=
  ⟨parsePluginReference_spec.2.2.2.1 "docker" (by decide) (by decide)
      (by decide),
    (parsePluginReference_spec.2.2.1 "mcncl/foo#v3.0.0"
      ⟨"mcncl", "foo", "v3.0.0", "mcncl/foo#v3.0.0"⟩
      parsePluginReference_spec.1).1⟩


/-! ## File eligibility (`internal/lsp` Server.isBuildkiteFile) -/

/-- `strings.TrimPrefix`. -/
def goTrimPrefix (s pre : String) : String :=
  if goHasPrefix s pre then String.mk (s.data.drop pre.data.length) else s

/-- `filepath.Base` (Unix rules): empty path gives `"."`, trailing slashes
are stripped, an all-slash path gives `"/"`, otherwise the last
slash-separated element. -/
def filepathBase (p : String) : String :=
  if p = "" then "."
  else
    let q := (p.data.reverse.dropWhile (fun c => c = '/')).reverse
    if q = [] then "/"
    else String.mk ((q.reverse.takeWhile (fun c => c ≠ '/')).reverse)

/-- The first two lines of `Server.isBuildkiteFile`: strip a `file://`
scheme prefix when present. -/
def stripFileScheme (uri : String) : String :=
  if goHasPrefix uri "file://" then goTrimPrefix uri "file://" else uri

/-- `Server.isBuildkiteFile`. -/
def isBuildkiteFile (uri : String) : Bool :=
  if goContains (stripFileScheme uri) ".buildkite/" then
    goHasSuffix (stripFileScheme uri) ".yml" ||
      goHasSuffix (stripFileScheme uri) ".yaml"
  else
    filepathBase (stripFileScheme uri) = "pipeline.yml" ||
      filepathBase (stripFileScheme uri) = "pipeline.yaml" ||
      filepathBase (stripFileScheme uri) = "buildkite.yml" ||
      filepathBase (stripFileScheme uri) = "buildkite.yaml"

/-- The claim's predicate, following the spec's words: the path contains
`/.buildkite/` (with the leading slash) with a `.yml`/`.yaml` suffix, or
the base name is one of the four pipeline file names. -/
def isBuildkiteFileSpec (uri : String) : Bool :=
  (goContains (stripFileScheme uri) "/.buildkite/" &&
    (goHasSuffix (stripFileScheme uri) ".yml" ||
      goHasSuffix (stripFileScheme uri) ".yaml")) ||
    filepathBase (stripFileScheme uri) = "pipeline.yml" ||
    filepathBase (stripFileScheme uri) = "pipeline.yaml" ||
    filepathBase (stripFileScheme uri) = "buildkite.yml" ||
    filepathBase (stripFileScheme uri) = "buildkite.yaml"

/-- C9 counterexample.  The source tests for the substring `.buildkite/`
(without a leading slash), and the base-name rule applies only when that
substring is absent: `a.buildkite/x.yml` is accepted by the code but not
by the claimed predicate, and `x/.buildkite/pipeline.yml/` is rejected by
the code but accepted by the claimed predicate. -/
theorem isBuildkiteFile_counterexample :
    isBuildkiteFile "a.buildkite/x.yml" = true ∧
      isBuildkiteFileSpec "a.buildkite/x.yml" = false ∧
      isBuildkiteFile "x/.buildkite/pipeline.yml/" = false ∧
      isBuildkiteFileSpec "x/.buildkite/pipeline.yml/" = true := by
  refine ⟨by decide, by decide, by decide, by decide⟩

/-- C9 (amended).  `isBuildkiteFile` returns true iff the URI's path
(after stripping a `file://` prefix) either contains `.buildkite/` and
ends with `.yml` or `.yaml`, or does not contain `.buildkite/` and has
base name `pipeline.yml`, `pipeline.yaml`, `buildkite.yml` or
`buildkite.yaml`. -/
theorem isBuildkiteFile_iff (uri : String) :
    isBuildkiteFile uri = true ↔
      ((goContains (stripFileScheme uri) ".buildkite/" = true ∧
        (goHasSuffix (stripFileScheme uri) ".yml" = true ∨
          goHasSuffix (stripFileScheme uri) ".yaml" = true)) ∨
      (goContains (stripFileScheme uri) ".buildkite/" = false ∧
        filepathBase (stripFileScheme uri) ∈
          ["pipeline.yml", "pipeline.yaml", "buildkite.yml",
            "buildkite.yaml"])) := by
  unfold isBuildkiteFile
  by_cases h : goContains (stripFileScheme uri) ".buildkite/" = true
  · simp [h]
  · rw [Bool.not_eq_true] at h
    simp only [h]
    simp [or_assoc]


/-! ## Step validation (`internal/lsp` Server.validateSingleStep)

Step data decoded from YAML (Go `map[string]interface{}`) is modelled as a
lookup function into Go interface values; a YAML `null` is the Go `nil`
interface, so `stepData[k] != nil` is "key present with non-null value"
while the comma-ok form `_, ok := stepData[k]` is bare key presence. -/

/-- A Go `interface{}` value produced by YAML/JSON decoding.  (Numeric
payloads are abstracted as integers; the validator never inspects them.) -/
inductive GoValue where
  | null
  | str (s : String)
  | num (x : Int)
  | boolean (b : Bool)
  | arr (elems : List GoValue)
  | obj (fields : List (String × GoValue))

/-- A decoded step object: Go `map[string]interface{}` as a lookup
function (`none` = key absent, `some .null` = key present with nil). -/
def StepData := String → Option GoValue

/-- Go `stepData[k] != nil`: the key maps to a non-nil interface value. -/
def isNonNil : Option GoValue → Bool
  | some .null => false
  | some _ => true
  | none => false

/-- Go `fmt.Sprintf("%T", v)` for the interface values above. -/
def goTypeName : GoValue → String
  | .null => "<nil>"
  | .str _ => "string"
  | .num _ => "float64"
  | .boolean _ => "bool"
  | .arr _ => "[]interface \x7b\x7d"
  | .obj _ => "map[string]interface \x7b\x7d"

/-- LSP position. -/
structure Position where
  line : Nat
  character : Nat
  deriving DecidableEq, Repr

/-- LSP range. -/
structure Range where
  startPos : Position
  endPos : Position
  deriving DecidableEq, Repr

/-- LSP diagnostic severity. -/
inductive Severity where
  | error
  | warning
  | information
  deriving DecidableEq, Repr

/-- LSP diagnostic as produced by the server. -/
structure Diagnostic where
  range : Range
  severity : Severity
  message : String
  source : String
  code : String
  deriving DecidableEq, Repr

/-- `hasCommand` of `validateSingleStep`. -/
def hasCommandStep (s : StepData) : Bool :=
  isNonNil (s "command") || isNonNil (s "commands")

/-- `hasWait` of `validateSingleStep`: key presence, value may be nil. -/
def hasWaitStep (s : StepData) : Bool :=
  (s "wait").isSome

/-- `hasBlock` of `validateSingleStep`. -/
def hasBlockStep (s : StepData) : Bool :=
  isNonNil (s "block")

/-- `hasInput` of `validateSingleStep`. -/
def hasInputStep (s : StepData) : Bool :=
  isNonNil (s "input")

/-- `hasTrigger` of `validateSingleStep`. -/
def hasTriggerStep (s : StepData) : Bool :=
  isNonNil (s "trigger")

/-- `hasGroup` of `validateSingleStep`. -/
def hasGroupStep (s : StepData) : Bool :=
  isNonNil (s "group")

/-- `stepTypeCount` of `validateSingleStep`. -/
def stepTypeCount (s : StepData) : Nat :=
  (if hasCommandStep s then 1 else 0) + (if hasWaitStep s then 1 else 0) +
    (if hasBlockStep s then 1 else 0) + (if hasInputStep s then 1 else 0) +
    (if hasTriggerStep s then 1 else 0) + (if hasGroupStep s then 1 else 0)

/-- The step-type block of `validateSingleStep`: missing step type (error,
or information when plugins are present) or multiple step types. -/
def typeDiagnostics (s : StepData) (lineNum stepNumber : Nat) :
    List Diagnostic :=
  if stepTypeCount s = 0 then
    if isNonNil (s "plugins") then
      [⟨⟨⟨lineNum, 2⟩, ⟨lineNum + 2, 0⟩⟩, .information,
        "Step " ++ toString stepNumber ++
          " has no explicit step type, but plugins may provide command execution via hooks",
        "buildkite-ls", "no-step-type-with-plugins"⟩]
    else
      [⟨⟨⟨lineNum, 2⟩, ⟨lineNum + 2, 0⟩⟩, .error,
        "Step " ++ toString stepNumber ++
          " must specify a step type: command, wait, block, input, trigger, or group",
        "buildkite-ls", "missing-step-type"⟩]
  else if 1 < stepTypeCount s then
    [⟨⟨⟨lineNum, 2⟩, ⟨lineNum + 3, 0⟩⟩, .error,
      "Step " ++ toString stepNumber ++
        " has multiple step types - only one is allowed per step",
      "buildkite-ls", "multiple-step-types"⟩]
  else []

/-- The command-step block of `validateSingleStep`: empty command, `name`
instead of `label`, and missing label; all guarded by `hasCommand`. -/
def commandDiagnostics (s : StepData) (lineNum : Nat) : List Diagnostic :=
  if hasCommandStep s then
    (match s "command" with
      | some (.str command) =>
        if goTrimSpace command = "" then
          if isNonNil (s "plugins") then
            [⟨⟨⟨lineNum + 1, 4⟩, ⟨lineNum + 1, 999⟩⟩, .information,
              "Command is empty, but plugins may provide command execution via hooks",
              "buildkite-ls", "empty-command-with-plugins"⟩]
          else
            [⟨⟨⟨lineNum + 1, 4⟩, ⟨lineNum + 1, 999⟩⟩, .warning,
              "Command should not be empty", "buildkite-ls", "empty-command"⟩]
        else []
      | _ => []) ++
    (if isNonNil (s "name") && !isNonNil (s "label") then
      [⟨⟨⟨lineNum, 2⟩, ⟨lineNum + 2, 0⟩⟩, .information,
        "Use 'label' instead of 'name' - 'label' is the standard Buildkite field for step display names",
        "buildkite-ls", "use-label-not-name"⟩]
    else []) ++
    (if !isNonNil (s "label") && !isNonNil (s "name") then
      [⟨⟨⟨lineNum, 2⟩, ⟨lineNum, 999⟩⟩, .information,
        "Consider adding a 'label' to make this step easier to identify in the UI",
        "buildkite-ls", "missing-label"⟩]
    else [])
  else []

/-- The wait-step block of `validateSingleStep`: a wait value must be nil,
a string or a float64. -/
def waitDiagnostics (s : StepData) (lineNum : Nat) : List Diagnostic :=
  if hasWaitStep s then
    match s "wait" with
    | some (.str _) => []
    | some (.num _) => []
    | some .null => []
    | some v =>
      [⟨⟨⟨lineNum + 1, 4⟩, ⟨lineNum + 1, 999⟩⟩, .error,
        "Wait value must be null, a string message, or a number of seconds, got " ++
          goTypeName v,
        "buildkite-ls", "invalid-wait-value"⟩]
    | none => []
  else []

/-- The block-step block of `validateSingleStep`. -/
def blockDiagnostics (s : StepData) (lineNum : Nat) : List Diagnostic :=
  if hasBlockStep s then
    if (match s "block" with
        | some (.str block) => goTrimSpace block == ""
        | _ => true) then
      [⟨⟨⟨lineNum + 1, 4⟩, ⟨lineNum + 1, 999⟩⟩, .error,
        "Block step must have a non-empty message", "buildkite-ls",
        "empty-block-message"⟩]
    else []
  else []

/-- The trigger-step block of `validateSingleStep`. -/
def triggerDiagnostics (s : StepData) (lineNum : Nat) : List Diagnostic :=
  if hasTriggerStep s then
    if (match s "trigger" with
        | some (.str trigger) => goTrimSpace trigger == ""
        | _ => true) then
      [⟨⟨⟨lineNum + 1, 4⟩, ⟨lineNum + 1, 999⟩⟩, .error,
        "Trigger step must specify a pipeline slug", "buildkite-ls",
        "empty-trigger-pipeline"⟩]
    else []
  else []

/-- The input-step block of `validateSingleStep`. -/
def inputDiagnostics (s : StepData) (lineNum : Nat) : List Diagnostic :=
  if hasInputStep s then
    if (match s "input" with
        | some (.str input) => goTrimSpace input == ""
        | _ => true) then
      [⟨⟨⟨lineNum + 1, 4⟩, ⟨lineNum + 1, 999⟩⟩, .error,
        "Input step must have a non-empty prompt message", "buildkite-ls",
        "empty-input-prompt"⟩]
    else []
  else []

/-- `Server.validateSingleStep`: the diagnostic blocks in source order. -/
def validateSingleStep (s : StepData) (lineNum stepNumber : Nat) :
    List Diagnostic :=
  typeDiagnostics s lineNum stepNumber ++ commandDiagnostics s lineNum ++
    waitDiagnostics s lineNum ++ blockDiagnostics s lineNum ++
    triggerDiagnostics s lineNum ++ inputDiagnostics s lineNum

/-- C5.  The `wait` presence test is key presence: a step with a non-null
command (or commands) and a `wait` key whose value is null counts at least
two step types and gets a `multiple-step-types` Error diagnostic. -/
theorem validateSingleStep_wait_null_multiple (s : StepData)
    (lineNum stepNumber : Nat) (hc : hasCommandStep s = true)
    (hw : s "wait" = some GoValue.null) :
    2 ≤ stepTypeCount s ∧
      ∃ d ∈ validateSingleStep s lineNum stepNumber,
        d.code = "multiple-step-types" ∧ d.severity = Severity.error := by
  have hwb : hasWaitStep s = true := by
    unfold hasWaitStep
    rw [hw]
    rfl
  have hcount : 2 ≤ stepTypeCount s := by
    unfold stepTypeCount
    rw [hc, hwb]
    simp only [if_true]
    split_ifs <;> omega
  refine ⟨hcount, ?_⟩
  have htype : typeDiagnostics s lineNum stepNumber =
      [⟨⟨⟨lineNum, 2⟩, ⟨lineNum + 3, 0⟩⟩, .error,
        "Step " ++ toString stepNumber ++
          " has multiple step types - only one is allowed per step",
        "buildkite-ls", "multiple-step-types"⟩] := by
    unfold typeDiagnostics
    rw [if_neg (by omega), if_pos (by omega)]
  refine ⟨⟨⟨⟨lineNum, 2⟩, ⟨lineNum + 3, 0⟩⟩, .error,
    "Step " ++ toString stepNumber ++
      " has multiple step types - only one is allowed per step",
    "buildkite-ls", "multiple-step-types"⟩, ?_, rfl, rfl⟩
  unfold validateSingleStep
  rw [htype]
  simp

/-- Witness for C5: the spec's scenario `command: "test"` with
`wait: ~`. -/
theorem validateSingleStep_wait_null_multiple_witness :
    2 ≤ stepTypeCount (fun k =>
        if k = "command" then some (GoValue.str "test")
        else if k = "wait" then some GoValue.null else none) ∧
      ∃ d ∈ validateSingleStep (fun k =>
          if k = "command" then some (GoValue.str "test")
          else if k = "wait" then some GoValue.null else none) 1 1,
        d.code = "multiple-step-types" ∧ d.severity = Severity.error :=
  validateSingleStep_wait_null_multiple _ 1 1 (by decide) rfl

/-- C6 counterexample.  A pure wait step (no command) with neither `label`
nor `name` gets no `missing-label` diagnostic: the label checks run only
inside the `hasCommand` branch. -/
theorem validateSingleStep_missing_label_counterexample :
    ((fun k => if k = "wait" then some GoValue.null else none) :
        StepData) "label" = none ∧
      ((fun k => if k = "wait" then some GoValue.null else none) :
        StepData) "name" = none ∧
      validateSingleStep
        (fun k => if k = "wait" then some GoValue.null else none) 1 1 =
        [] := by
  refine ⟨rfl, rfl, rfl⟩

/-- C6 (amended).  For every command step (non-null `command` or
`commands`) with neither a non-null `label` nor a non-null `name`, step
validation emits a `missing-label` diagnostic with severity Information;
the check is restricted to command steps. -/
theorem validateSingleStep_missing_label (s : StepData)
    (lineNum stepNumber : Nat) (hc : hasCommandStep s = true)
    (hl : isNonNil (s "label") = false) (hn : isNonNil (s "name") = false) :
    ∃ d ∈ validateSingleStep s lineNum stepNumber,
      d.code = "missing-label" ∧ d.severity = Severity.information := by
  refine ⟨⟨⟨⟨lineNum, 2⟩, ⟨lineNum, 999⟩⟩, .information,
    "Consider adding a 'label' to make this step easier to identify in the UI",
    "buildkite-ls", "missing-label"⟩, ?_, rfl, rfl⟩
  unfold validateSingleStep commandDiagnostics
  rw [hc]
  simp only [if_true, hl, hn]
  simp

/-- Witness for C6 (amended): a bare command step. -/
theorem validateSingleStep_missing_label_witness :
    ∃ d ∈ validateSingleStep
        (fun k => if k = "command" then some (GoValue.str "make") else none)
        1 1,
      d.code = "missing-label" ∧ d.severity = Severity.information :=
  validateSingleStep_missing_label _ 1 1 (by decide) (by decide) (by decide)


/-! ## Completion (`internal/lsp` CompletionProvider) -/

/-- LSP completion item kinds used by the provider. -/
inductive CompletionItemKind where
  | property
  | keyword
  | module
  | snippet
  deriving DecidableEq, Repr

/-- LSP insert-text formats. -/
inductive InsertTextFormat where
  | plainText
  | snippet
  deriving DecidableEq, Repr

/-- An LSP completion item with the fields the provider populates
(documentation is the Markdown string of the `MarkupContent`). -/
structure CompletionItem where
  label : String
  kind : CompletionItemKind
  detail : String
  documentation : String
  insertText : Option String := none
  insertTextFormat : Option InsertTextFormat := none
  sortText : Option String := none
  filterText : Option String := none
  deriving DecidableEq, Repr

/-- `plugins.PopularPlugin`. -/
structure PopularPlugin where
  name : String
  version : String
  description : String
  deriving DecidableEq, Repr

/-- `plugins.GetPopularPlugins`: the closed catalog of 11 plugins. -/
def GetPopularPlugins : List PopularPlugin :=
  [⟨"docker", "v5.13.0", "Run build steps in Docker containers"⟩,
    ⟨"docker-compose", "v5.10.0", "Run build steps with Docker Compose"⟩,
    ⟨"cache", "v1.7.0", "Cache files between builds"⟩,
    ⟨"artifacts", "v1.9.4", "Upload and download build artifacts"⟩,
    ⟨"test-collector", "v1.11.0", "Collect and analyze test results"⟩,
    ⟨"junit-annotate", "v2.7.0", "Annotate builds with JUnit test results"⟩,
    ⟨"shellcheck", "v1.4.0", "Run ShellCheck on shell scripts"⟩,
    ⟨"ecr", "v2.10.0", "Build and push Docker images to AWS ECR"⟩,
    ⟨"monorepo-diff", "v1.5.1", "Skip builds for unchanged parts of monorepos"⟩,
    ⟨"plugin-linter", "v3.3.0", "Lint Buildkite plugins"⟩,
    ⟨"docker-login", "v3.0.0", "Log in to Docker registries"⟩]

/-- `CompletionProvider.getTopLevelCompletions`. -/
def getTopLevelCompletions : List CompletionItem :=
  [{ label := "steps", kind := .property, detail := "Pipeline steps array",
      documentation := "An array of build steps to be run",
      insertText := some "steps:\n  - $0",
      insertTextFormat := some .snippet },
    { label := "env", kind := .property, detail := "Environment variables",
      documentation := "Environment variables for the pipeline",
      insertText := some "env:\n  $0",
      insertTextFormat := some .snippet },
    { label := "agents", kind := .property, detail := "Agent requirements",
      documentation := "Requirements for agents to run this pipeline",
      insertText := some "agents:\n  $0",
      insertTextFormat := some .snippet },
    { label := "timeout_in_minutes", kind := .property,
      detail := "Pipeline timeout",
      documentation := "The maximum number of minutes a job created by this step will run" },
    { label := "cancel_running_branch_builds", kind := .property,
      detail := "Cancel running builds",
      documentation := "Cancel running builds for the same branch when a new build is created" },
    { label := "skip_intermediate_builds", kind := .property,
      detail := "Skip intermediate builds",
      documentation := "Skip intermediate builds and only run the latest" },
    { label := "skip", kind := .property, detail := "Skip entire pipeline",
      documentation := "Skip this pipeline entirely" },
    { label := "notify", kind := .property, detail := "Build notifications",
      documentation := "Configure Slack, email, or webhook notifications",
      insertText := some "notify:\n  - $\x7b1|slack,email,webhook|\x7d: \"$2\"",
      insertTextFormat := some .snippet },
    { label := "group", kind := .property, detail := "Group steps together",
      documentation := "Group related steps together in the pipeline UI",
      insertText := some "group: \"$1\"",
      insertTextFormat := some .snippet },
    { label := "x-buildkite-repository-provider", kind := .property,
      detail := "Repository provider settings",
      documentation := "Configure repository provider specific settings",
      insertText := some "x-buildkite-repository-provider:\n  webhook_url: \"$\x7b1:https://api.buildkite.com/v2/webhooks/\x7d\"\n  build_branches: $\x7b2|true,false|\x7d",
      insertTextFormat := some .snippet },
    { label := "x-buildkite-plugins", kind := .property,
      detail := "Global plugin configuration",
      documentation := "Define plugins that apply to all steps",
      insertText := some "x-buildkite-plugins:\n  - $\x7b1:plugin-name\x7d#$\x7b2:version\x7d:\n      $\x7b3:config\x7d: \"$\x7b4:value\x7d\"",
      insertTextFormat := some .snippet },
    { label := "repository_provider_settings", kind := .property,
      detail := "Repository provider configuration",
      documentation := "Settings specific to your repository provider (GitHub, GitLab, etc.)",
      insertText := some "repository_provider_settings:\n  build_pull_requests: $\x7b1|true,false|\x7d\n  build_branches: $\x7b2|true,false|\x7d\n  publish_commit_status: $\x7b3|true,false|\x7d",
      insertTextFormat := some .snippet }]

/-- `CompletionProvider.getStepCompletions`. -/
def getStepCompletions : List CompletionItem :=
  [{ label := "label", kind := .property, detail := "Step label",
      documentation := "The label that will be displayed in the pipeline" },
    { label := "command", kind := .property, detail := "Command to run",
      documentation := "The command/script to be executed by this step" },
    { label := "commands", kind := .property, detail := "Multiple commands",
      documentation := "An array of commands to run in sequence",
      insertText := some "commands:\n  - \"$0\"",
      insertTextFormat := some .snippet },
    { label := "agents", kind := .property,
      detail := "Agent requirements for step",
      documentation := "Agent query rules to target specific agents",
      insertText := some "agents:\n  $0",
      insertTextFormat := some .snippet },
    { label := "artifact_paths", kind := .property,
      detail := "Paths to upload as artifacts",
      documentation := "Glob patterns for files to upload as build artifacts" },
    { label := "branches", kind := .property, detail := "Branch filtering",
      documentation := "Restrict step to certain branches" },
    { label := "if", kind := .property, detail := "Conditional step",
      documentation := "A boolean condition to determine if the step should run" },
    { label := "depends_on", kind := .property, detail := "Step dependencies",
      documentation := "A list of step keys that this step depends on" },
    { label := "retry", kind := .property, detail := "Retry configuration",
      documentation := "The conditions for retrying this step",
      insertText := some "retry:\n  automatic: $\x7b1:true\x7d\n  manual: $\x7b2:true\x7d",
      insertTextFormat := some .snippet },
    { label := "timeout_in_minutes", kind := .property,
      detail := "Step timeout",
      documentation := "The number of minutes to time out a job" },
    { label := "skip", kind := .property, detail := "Skip this step",
      documentation := "Whether to skip this step" },
    { label := "plugins", kind := .property, detail := "Build step plugins",
      documentation := "List of plugins to run for this step",
      insertText := some "plugins:\n  - $0",
      insertTextFormat := some .snippet },
    { label := "key", kind := .property, detail := "Step key identifier",
      documentation := "A unique identifier for this step, used for dependencies" },
    { label := "concurrency", kind := .property,
      detail := "Concurrency limit",
      documentation := "Number of concurrent jobs allowed for this step" },
    { label := "concurrency_group", kind := .property,
      detail := "Concurrency group name",
      documentation := "Name of the concurrency group to limit parallel execution" },
    { label := "concurrency_method", kind := .property,
      detail := "Concurrency method",
      documentation := "How to handle concurrency limits (eager or ordered)",
      insertText := some "concurrency_method: $\x7b1|eager,ordered|\x7d",
      insertTextFormat := some .snippet },
    { label := "parallelism", kind := .property,
      detail := "Number of parallel jobs",
      documentation := "Number of parallel jobs to run for this step" },
    { label := "soft_fail", kind := .property,
      detail := "Allow step to fail",
      documentation := "Allow the step to fail without failing the entire build",
      insertText := some "soft_fail: $\x7b1|true,false|\x7d",
      insertTextFormat := some .snippet },
    { label := "priority", kind := .property, detail := "Step priority",
      documentation := "Priority of this step (-5 to 5, higher values run first)" },
    { label := "matrix", kind := .property,
      detail := "Matrix build configuration",
      documentation := "Create multiple variations of this step with different variable combinations",
      insertText := some "matrix:\n  setup:\n    $\x7b1:environment\x7d: [\"$\x7b2:production\x7d\", \"$\x7b3:staging\x7d\"]\n    $\x7b4:node_version\x7d: [\"$\x7b5:16\x7d\", \"$\x7b6:18\x7d\", \"$\x7b7:20\x7d\"]\n  adjustments:\n    - with:\n        $\x7b8:environment\x7d: \"$\x7b9:production\x7d\"\n      $\x7b10|skip,soft_fail|\x7d: $\x7b11|true,false|\x7d",
      insertTextFormat := some .snippet },
    { label := "notify", kind := .property,
      detail := "Step-specific notifications",
      documentation := "Configure notifications for this specific step",
      insertText := some "notify:\n  - $\x7b1|slack,email,webhook|\x7d: \"$2\"",
      insertTextFormat := some .snippet },
    { label := "wait", kind := .keyword, detail := "Wait step",
      documentation := "Wait for all previous steps to complete",
      insertText := some "wait: $\x7b1|~,null|\x7d",
      insertTextFormat := some .snippet },
    { label := "block", kind := .keyword, detail := "Block/manual step",
      documentation := "Manual approval step that blocks pipeline execution" },
    { label := "input", kind := .keyword, detail := "Input step",
      documentation := "Collect user input before continuing" },
    { label := "trigger", kind := .keyword, detail := "Trigger step",
      documentation := "Trigger another pipeline" },
    { label := "group", kind := .property, detail := "Group step",
      documentation := "Group multiple steps together",
      insertText := some "group: \"$1\"\nsteps:\n  - $0",
      insertTextFormat := some .snippet },
    { label := "prompt", kind := .property, detail := "Block step prompt",
      documentation := "Prompt text shown for manual approval steps" },
    { label := "fields", kind := .property, detail := "Input step fields",
      documentation := "Fields to collect from user input",
      insertText := some "fields:\n  - $\x7b1|text,select,boolean|\x7d: \"$2\"",
      insertTextFormat := some .snippet },
    { label := "pipeline", kind := .property,
      detail := "Pipeline to trigger",
      documentation := "Pipeline slug to trigger" },
    { label := "build", kind := .property,
      detail := "Trigger build configuration",
      documentation := "Build configuration for triggered pipeline",
      insertText := some "build:\n  message: \"$1\"\n  commit: \"$\x7b2:HEAD\x7d\"\n  branch: \"$\x7b3:main\x7d\"",
      insertTextFormat := some .snippet },
    { label := "async", kind := .property, detail := "Async trigger",
      documentation := "Don't wait for triggered pipeline to complete" },
    { label := "group", kind := .property, detail := "Step group",
      documentation := "Group steps together in the UI" },
    { label := "parallelism", kind := .property,
      detail := "Parallel job count",
      documentation := "Number of parallel jobs to run for this step",
      insertText := some "parallelism: $\x7b1:5\x7d",
      insertTextFormat := some .snippet },
    { label := "signature", kind := .property, detail := "Step signature",
      documentation := "Digital signature for step verification",
      insertText := some "signature:\n  algorithm: \"$\x7b1:sha256\x7d\"\n  signed_fields:\n    - \"$\x7b2:command\x7d\"",
      insertTextFormat := some .snippet },
    { label := "cache", kind := .property, detail := "Step-level cache",
      documentation := "Cache configuration for this specific step",
      insertText := some "cache:\n  - \"$\x7b1:.cache\x7d\"",
      insertTextFormat := some .snippet },
    { label := "concurrency_method", kind := .property,
      detail := "Concurrency control method",
      documentation := "How to handle concurrency conflicts",
      insertText := some "concurrency_method: $\x7b1|eager,ordered|\x7d",
      insertTextFormat := some .snippet },
    { label := "cancel_on_build_failing", kind := .property,
      detail := "Cancel on build failure",
      documentation := "Cancel this step if any other step fails",
      insertText := some "cancel_on_build_failing: $\x7b1|true,false|\x7d",
      insertTextFormat := some .snippet }]

/-- `CompletionProvider.needsListItemSuggestion`: suggest a list-item
helper only on a blank current line in the Plugins context. -/
def needsListItemSuggestion (posCtx : Option PositionContext)
    (contextInfo : Option ContextInfo) : Bool :=
  match posCtx, contextInfo with
  | some pc, some info =>
    if goHasPrefix (goTrimSpace pc.currentLine) "-" then false
    else if goTrimSpace pc.currentLine = "" ∧
        info.type = CompletionContext.plugins then true
    else false
  | _, _ => false

/-- The per-plugin snippet switch of
`CompletionProvider.getPluginCompletions`. -/
def pluginCompletionInsertText (pluginName fullName : String) : String :=
  if pluginName = "docker" then
    fullName ++ ":\n    image: \"$\x7b1:node:18\x7d\""
  else if pluginName = "docker-compose" then
    fullName ++ ":\n    run: \"$\x7b1:app\x7d\""
  else if pluginName = "cache" then
    fullName ++ ":\n    key: \"$\x7b1:v1-cache-key\x7d\"\n    paths:\n      - \"$\x7b2:.cache\x7d\""
  else if pluginName = "artifacts" then
    fullName ++ ":\n    download: \"$\x7b1:build/*\x7d\""
  else if pluginName = "test-collector" then
    fullName ++ ":\n    files: \"$\x7b1:test-results.xml\x7d\""
  else if pluginName = "slack" then
    fullName ++ ":\n    message: \"$\x7b1:Build completed\x7d\""
  else if pluginName = "junit-annotate" then
    fullName ++ ":\n    artifacts: \"$\x7b1:test-results.xml\x7d\""
  else if pluginName = "shellcheck" then
    fullName ++ ":\n    files: \"$\x7b1:scripts/*.sh\x7d\""
  else
    fullName ++ ":\n    $\x7b1:property\x7d: \"$\x7b2:value\x7d\""

/-- Go `fmt.Sprintf("%02d", n)`. -/
def sprintf02d (n : Nat) : String :=
  if n < 10 then "0" ++ toString n else toString n

/-- The list-item helper completion of
`CompletionProvider.getPluginCompletions`. -/
def listItemHelperCompletion : CompletionItem :=
  { label := "- (add plugin)", kind := .snippet,
    detail := "Add a plugin to the list",
    documentation := "Insert a list item for adding a plugin",
    insertText := some "- $\x7b1:plugin-name\x7d#$\x7b2:version\x7d:\n    $\x7b3:config\x7d: \"$\x7b4:value\x7d\"",
    insertTextFormat := some .snippet,
    sortText := some "00-list-item" }

/-- The per-plugin completion item of
`CompletionProvider.getPluginCompletions`. -/
def popularPluginCompletion (plugin : PopularPlugin) : CompletionItem :=
  { label := plugin.name ++ "#" ++ plugin.version, kind := .module,
    detail := plugin.description,
    documentation := "**" ++ plugin.name ++ " Plugin**\n\n" ++
      plugin.description ++
      "\n\n[Plugin Directory](https://buildkite.com/plugins)",
    insertText := some (pluginCompletionInsertText plugin.name
      (plugin.name ++ "#" ++ plugin.version)),
    insertTextFormat := some .snippet,
    filterText := some plugin.name,
    sortText := some (sprintf02d plugin.name.length ++ "-" ++ plugin.name) }

/-- `CompletionProvider.getPluginCompletions`. -/
def getPluginCompletions (posCtx : Option PositionContext)
    (contextInfo : ContextInfo) : List CompletionItem :=
  (if needsListItemSuggestion posCtx (some contextInfo) then
    [listItemHelperCompletion]
  else []) ++ GetPopularPlugins.map popularPluginCompletion

/-- Consume leading decimal digits, returning their count and the rest. -/
def takeDigits : List Char → Nat × List Char
  | [] => (0, [])
  | c :: r =>
    if c.isDigit then
      ((takeDigits r).1 + 1, (takeDigits r).2)
    else (0, c :: r)

/-- `v<major>.<minor>.<patch>` optionally followed by `-suffix`. -/
def isSemverTag : List Char → Bool
  | 'v' :: rest =>
    let d1 := takeDigits rest
    match d1.2 with
    | '.' :: r2 =>
      let d2 := takeDigits r2
      match d2.2 with
      | '.' :: r4 =>
        let d3 := takeDigits r4
        decide (0 < d1.1) && decide (0 < d2.1) && decide (0 < d3.1) &&
          (match d3.2 with
            | [] => true
            | '-' :: suf => decide (suf ≠ [])
            | _ => false)
      | _ => false
    | _ => false
  | _ => false

/-- A label of the form `<name>#v<major>.<minor>.<patch>(-suffix)?` with a
non-empty name. -/
def isPluginLabel (s : String) : Bool :=
  match splitOnce '#' s.data with
  | some nv => decide (nv.1 ≠ []) && isSemverTag nv.2
  | none => false

/-- A Plugins-context request on a blank line. -/
def pluginsBlankLinePC : PositionContext :=
  ⟨"file:///p/.buildkite/pipeline.yml", 4, 6, "      ", 6,
    ["steps:", "  - label: \"test\"", "    command: \"echo\"",
      "    plugins:", "      "], ""⟩

/-- A ContextInfo of kind Plugins as the analyzer produces for that
position. -/
def pluginsContextInfo : ContextInfo :=
  ⟨.plugins, 6, true, "plugins", ["steps", "plugins"], "", "", -1⟩

/-- C8 counterexample.  On a blank current line in the Plugins context the
provider prepends the list-item helper, whose label `- (add plugin)`
contains no `#`. -/
theorem pluginCompletions_label_counterexample :
    ∃ item ∈ getPluginCompletions (some pluginsBlankLinePC)
        pluginsContextInfo,
      item.label = "- (add plugin)" ∧ '#' ∉ item.label.data := by
  decide

/-- C8 (amended).  In the Plugins context every returned item is either
the list-item helper (present exactly when the current line is blank) or
a popular-plugin item whose label contains `#` and has the form
`<name>#v<major>.<minor>.<patch>(-suffix)?`; when the current line is not
blank every returned label has that form; in the Step and TopLevel
contexts no label contains `#`. -/
theorem completions_label_invariant :
    (∀ (posCtx : Option PositionContext) (info : ContextInfo),
      ∀ item ∈ getPluginCompletions posCtx info,
        item.label = "- (add plugin)" ∨
          ('#' ∈ item.label.data ∧ isPluginLabel item.label = true)) ∧
    (∀ (posCtx : Option PositionContext) (info : ContextInfo),
      needsListItemSuggestion posCtx (some info) = false →
      ∀ item ∈ getPluginCompletions posCtx info,
        '#' ∈ item.label.data ∧ isPluginLabel item.label = true) ∧
    (∀ item ∈ getStepCompletions, '#' ∉ item.label.data) ∧
    (∀ item ∈ getTopLevelCompletions, '#' ∉ item.label.data) := by
  have hplugins : ∀ item ∈ GetPopularPlugins.map popularPluginCompletion,
      '#' ∈ item.label.data ∧ isPluginLabel item.label = true := by decide
  refine ⟨?_, ?_, by decide, by decide⟩
  · intro posCtx info item hmem
    unfold getPluginCompletions at hmem
    rcases List.mem_append.mp hmem with h | h
    · left
      rcases hn : needsListItemSuggestion posCtx (some info) with _ | _
      · rw [hn] at h
        simp at h
      · rw [hn] at h
        simp at h
        rw [h]
        rfl
    · right
      exact hplugins item h
  · intro posCtx info hneed item hmem
    unfold getPluginCompletions at hmem
    rw [hneed] at hmem
    refine hplugins item ?_
    simpa using hmem

/-- Witness for C8 (amended): on a non-blank current line every label is
plugin-shaped; evaluated at the docker item. -/
theorem completions_label_invariant_witness :
    '#' ∈ (popularPluginCompletion
        ⟨"docker", "v5.13.0", "Run build steps in Docker containers"⟩).label.data ∧
      isPluginLabel (popularPluginCompletion
        ⟨"docker", "v5.13.0", "Run build steps in Docker containers"⟩).label =
        true :=
  completions_label_invariant.2.1
    (some ⟨"u", 4, 8, "      - ", 8, ["steps:"], ""⟩)
    pluginsContextInfo (by decide)
    (popularPluginCompletion
      ⟨"docker", "v5.13.0", "Run build steps in Docker containers"⟩)
    (by decide)


/-! ## Semantic tokens (`internal/lsp` Server semantic-token generation)

The flat `[]uint32` token stream is modelled as `List Nat` whose entries
are reduced modulo `2^32` wherever the source performs a `uint32`
conversion or subtraction. -/

/-- Go `uint32(n)`. -/
def u32 (n : Nat) : Nat := n % 2 ^ 32

/-- Go `uint32` subtraction `a - b`. -/
def u32sub (a b : Nat) : Nat :=
  ((2 ^ 32 + a % 2 ^ 32) - b % 2 ^ 32) % 2 ^ 32

/-- First index of the substring `pat`, mirroring `strings.Index`. -/
def indexOfSub (pat : List Char) : List Char → Option Nat
  | [] => if hasPrefixChars pat [] then some 0 else none
  | c :: cs =>
    if hasPrefixChars pat (c :: cs) then some 0
    else (indexOfSub pat cs).map (· + 1)

/-- `Server.getIndentLevel`: spaces count 1, tabs count 4. -/
def serverIndentChars : List Char → Nat
  | ' ' :: rest => 1 + serverIndentChars rest
  | '\t' :: rest => 4 + serverIndentChars rest
  | _ => 0

/-- `Server.getIndentLevel` on strings. -/
def serverGetIndentLevel (line : String) : Nat :=
  serverIndentChars line.data

/-- `strconv.Atoi` success: optional sign, one or more decimal digits, and
the value fits in a 64-bit int. -/
def digitsToNat : List Char → Nat :=
  List.foldl (fun a c => a * 10 + (c.toNat - 48)) 0

/-- Whether `strconv.Atoi` succeeds on `s`. -/
def atoiOk (s : String) : Bool :=
  let signed : Bool × List Char :=
    match s.data with
    | '+' :: r => (false, r)
    | '-' :: r => (true, r)
    | r => (false, r)
  decide (signed.2 ≠ []) && signed.2.all Char.isDigit &&
    decide (digitsToNat signed.2 ≤
      if signed.1 then 2 ^ 63 else 2 ^ 63 - 1)

/-- `Server.getTokenTypeIndex`: index into the eight-entry legend
`keyword, string, property, variable, function, namespace, operator,
comment`, defaulting to 0 (the source scans the legend slice). -/
def getTokenTypeIndex (tokenType : String) : Nat :=
  if tokenType = "keyword" then 0
  else if tokenType = "string" then 1
  else if tokenType = "property" then 2
  else if tokenType = "variable" then 3
  else if tokenType = "function" then 4
  else if tokenType = "namespace" then 5
  else if tokenType = "operator" then 6
  else if tokenType = "comment" then 7
  else 0

/-- `Server.getTokenModifierBits`: OR together `definition = 1`,
`readonly = 2`, `deprecated = 4`; unknown modifiers contribute nothing. -/
def getTokenModifierBits (modifiers : List String) : Nat :=
  modifiers.foldl
    (fun bits m =>
      if m = "definition" then bits ||| 1
      else if m = "readonly" then bits ||| 2
      else if m = "deprecated" then bits ||| 4
      else bits) 0

/-- `Server.createToken`: one absolute-position 5-tuple
`[line, start, length, tokenTypeIndex, modifierBits]`. -/
def createToken (line start length : Nat) (tokenType : String)
    (modifiers : List String) : List Nat :=
  [line, start, length, u32 (getTokenTypeIndex tokenType),
    u32 (getTokenModifierBits modifiers)]

/-- The closed set of step-type keys of `getKeyTokenType` and
`getKeyModifiers`. -/
def isStepTypeKey (key : String) : Bool :=
  key = "command" || key = "commands" || key = "wait" || key = "block" ||
    key = "input" || key = "trigger" || key = "group"

/-- `Server.getKeyTokenType`. -/
def getKeyTokenType (key : String) (_inStep : Bool) : String :=
  if isStepTypeKey key then "keyword"
  else if key = "key" ∨ key = "label" then "namespace"
  else if key = "env" then "variable"
  else if key = "plugins" ∨ goContains key "#" = true then "function"
  else "property"

/-- `Server.getKeyModifiers`. -/
def getKeyModifiers (key : String) (inStep : Bool) : List String :=
  (if isStepTypeKey key && inStep then ["definition"] else []) ++
    (if key = "key" ∨ key = "timeout_in_minutes" then ["readonly"] else [])

/-- `Server.getValueTokenType`. -/
def getValueTokenType (key value : String) (_inStep : Bool) :
    String × List String :=
  let cleanValue := String.mk (trimChars ['"', '\''] value.data)
  if goContains cleanValue "#" then ("function", [])
  else if key = "env" then ("variable", [])
  else if key = "key" ∨ key = "label" then ("namespace", [])
  else if cleanValue = "true" ∨ cleanValue = "false" ∨
      cleanValue = "null" ∨ cleanValue = "~" then ("keyword", ["readonly"])
  else if atoiOk cleanValue then ("keyword", ["readonly"])
  else ("string", [])

/-- `Server.parseStepContent`. -/
def parseStepContent (content : String) (line startChar : Nat) :
    List Nat :=
  match indexOfChar ':' content.data with
  | some colonIndex =>
    let key := goTrimSpace (String.mk (content.data.take colonIndex))
    let value := goTrimSpace (String.mk (content.data.drop (colonIndex + 1)))
    createToken line startChar (u32 key.length)
        (getKeyTokenType key true) (getKeyModifiers key true) ++
      createToken line (startChar + u32 key.length) 1 "operator" [] ++
      (if value ≠ "" then
        let valueStart := startChar + u32 (colonIndex + 1) +
          ((content.data.drop (colonIndex + 1)).takeWhile
            (fun c => c = ' ')).length
        if (getValueTokenType key value true).1 ≠ "" then
          createToken line valueStart (u32 value.length)
            (getValueTokenType key value true).1
            (getValueTokenType key value true).2
        else []
      else [])
  | none => []

/-- The mutable tokenizer context (`inSteps`, `inStep`, `stepIndent`)
threaded through `tokenizeLine` by pointer in the source. -/
structure TokenizerState where
  inSteps : Bool
  inStep : Bool
  stepIndent : Int
  deriving DecidableEq, Repr

/-- `Server.tokenizeLine`: produces the absolute-position tokens of one
line and the updated tokenizer context. -/
def tokenizeLine (line : String) (lineNumber : Nat)
    (st : TokenizerState) : List Nat × TokenizerState :=
  let trimmed := goTrimSpace line
  if trimmed = "" ∨ goHasPrefix trimmed "#" then
    (if goHasPrefix trimmed "#" then
      match indexOfChar '#' line.data with
      | some commentStart =>
        createToken lineNumber (u32 commentStart) (u32 trimmed.length)
          "comment" []
      | none => []
    else [], st)
  else
    let indent := serverGetIndentLevel line
    if trimmed = "steps:" then
      (createToken lineNumber 0 (u32 ("steps" : String).length)
          "keyword" [] ++
        createToken lineNumber (u32 ("steps" : String).length) 1
          "operator" [],
        { st with inSteps := true, inStep := false })
    else
      let st :=
        if st.inSteps ∧ indent = 0 ∧ ¬ goHasPrefix trimmed "- " = true then
          { st with inSteps := false, inStep := false }
        else st
      if st.inSteps ∧
          goHasPrefix (String.mk (trimLeftChars [' ', '\t'] line.data))
            "- " = true ∧ indent = 2 then
        let st := { st with inStep := true, stepIndent := (indent : Int) }
        match indexOfSub ['-', ' '] line.data with
        | some dashPos =>
          (createToken lineNumber (u32 dashPos) 1 "operator" [] ++
            (if goTrimSpace (String.mk (line.data.drop (dashPos + 2))) ≠ ""
              then
              parseStepContent
                (goTrimSpace (String.mk (line.data.drop (dashPos + 2))))
                lineNumber (u32 (dashPos + 2))
            else []), st)
        | none => ([], st)
      else
        let st :=
          if st.inStep ∧ (indent : Int) ≤ st.stepIndent ∧
              ¬ goHasPrefix trimmed "- " = true then
            { st with inStep := false }
          else st
        match indexOfChar ':' line.data with
        | some colonIndex =>
          let keyStart :=
            (line.data.takeWhile (fun c => c = ' ' ∨ c = '\t')).length
          let key := goTrimSpace
            (String.mk ((line.data.take colonIndex).drop keyStart))
          let value := goTrimSpace
            (String.mk (line.data.drop (colonIndex + 1)))
          (createToken lineNumber (u32 keyStart) (u32 key.length)
              (getKeyTokenType key st.inStep)
              (getKeyModifiers key st.inStep) ++
            createToken lineNumber (u32 colonIndex) 1 "operator" [] ++
            (if value ≠ "" then
              let valueStart := colonIndex + 1 +
                ((line.data.drop (colonIndex + 1)).takeWhile
                  (fun c => c = ' ')).length
              if (getValueTokenType key value st.inStep).1 ≠ "" then
                createToken lineNumber (u32 valueStart) (u32 value.length)
                  (getValueTokenType key value st.inStep).1
                  (getValueTokenType key value st.inStep).2
              else []
            else []), st)
        | none => ([], st)

/-- The delta-encoding loop of `generateSemanticTokensForRange`: walks the
absolute 5-tuples, emitting `[Δline, Δstart, length, type, modifiers]` and
returning the final `(prevLine, prevStart)`.  (Inputs always have length
a multiple of five; a shorter remainder cannot occur.) -/
def encodeChunks (prevLine prevStart : Nat) :
    List Nat → List Nat × Nat × Nat
  | l :: st :: len :: ty :: mo :: rest =>
    let dl := u32sub l prevLine
    let ds := if dl = 0 then u32sub st prevStart else st
    let r := encodeChunks l st rest
    (dl :: ds :: len :: ty :: mo :: r.1, r.2)
  | _ => ([], prevLine, prevStart)

/-- The per-line loop of `Server.generateSemanticTokensForRange`. -/
def genRangeLoop (st : TokenizerState) (prevLine prevStart : Nat)
    (lineIndex startLineOffset : Nat) : List String → List Nat
  | [] => []
  | line :: rest =>
    let tl := tokenizeLine line (u32 (lineIndex + startLineOffset)) st
    let enc := encodeChunks prevLine prevStart tl.1
    enc.1 ++
      genRangeLoop tl.2 enc.2.1 enc.2.2 (lineIndex + 1) startLineOffset rest

/-- `Server.generateSemanticTokensForRange`. -/
def generateSemanticTokensForRange (lines : List String)
    (startLineOffset : Nat) : List Nat :=
  genRangeLoop ⟨false, false, -1⟩ 0 0 0 startLineOffset lines

/-- `Server.generateSemanticTokens`. -/
def generateSemanticTokens (lines : List String) : List Nat :=
  generateSemanticTokensForRange lines 0

/-! ### Well-formedness of the token stream -/

/-- A well-formed token stream: a sequence of 5-tuples whose fourth entry
(token type) and fifth entry (modifier bits) are below 8. -/
inductive TokenWF : List Nat → Prop
  | nil : TokenWF []
  | chunk (a b c ty mo : Nat) (rest : List Nat) (hty : ty < 8)
      (hmo : mo < 8) (h : TokenWF rest) :
      TokenWF (a :: b :: c :: ty :: mo :: rest)

theorem TokenWF.append {l1 l2 : List Nat} (h1 : TokenWF l1)
    (h2 : TokenWF l2) : TokenWF (l1 ++ l2) := by
  induction h1 with
  | nil => simpa using h2
  | chunk a b c ty mo rest hty hmo _ ih =>
    exact TokenWF.chunk a b c ty mo _ hty hmo ih

theorem TokenWF.ite {c : Prop} [Decidable c] {l1 l2 : List Nat}
    (h1 : TokenWF l1) (h2 : TokenWF l2) : TokenWF (if c then l1 else l2) := by
  split <;> assumption

theorem getTokenTypeIndex_lt (tokenType : String) :
    getTokenTypeIndex tokenType < 8 := by
  unfold getTokenTypeIndex
  repeat' split
  all_goals omega

theorem getTokenModifierBits_lt (modifiers : List String) :
    getTokenModifierBits modifiers < 8 := by
  suffices h : ∀ bits : Nat, bits < 8 →
      modifiers.foldl
        (fun bits m =>
          if m = "definition" then bits ||| 1
          else if m = "readonly" then bits ||| 2
          else if m = "deprecated" then bits ||| 4
          else bits) bits < 8 by
    exact h 0 (by omega)
  induction modifiers with
  | nil => intro bits hb; simpa using hb
  | cons m rest ih =>
    intro bits hb
    simp only [List.foldl_cons]
    refine ih _ ?_
    have h1 : bits ||| 1 < 8 :=
      Nat.or_lt_two_pow (n := 3) hb (by omega)
    have h2 : bits ||| 2 < 8 :=
      Nat.or_lt_two_pow (n := 3) hb (by omega)
    have h4 : bits ||| 4 < 8 :=
      Nat.or_lt_two_pow (n := 3) hb (by omega)
    split_ifs <;> assumption

theorem u32_lt_of_lt {x : Nat} (h : x < 8) : u32 x < 8 := by
  unfold u32
  have := Nat.mod_le x (2 ^ 32)
  omega

theorem TokenWF.createToken (line start length : Nat) (tokenType : String)
    (modifiers : List String) :
    TokenWF (BuildkiteLS.createToken line start length tokenType
      modifiers) :=
  TokenWF.chunk _ _ _ _ _ _
    (u32_lt_of_lt (getTokenTypeIndex_lt tokenType))
    (u32_lt_of_lt (getTokenModifierBits_lt modifiers)) TokenWF.nil

theorem TokenWF.parseStepContent (content : String) (line startChar : Nat) :
    TokenWF (BuildkiteLS.parseStepContent content line startChar) := by
  unfold BuildkiteLS.parseStepContent
  split
  · dsimp only
    refine TokenWF.append
      (TokenWF.append (TokenWF.createToken ..) (TokenWF.createToken ..)) ?_
    refine TokenWF.ite ?_ TokenWF.nil
    dsimp only
    exact TokenWF.ite (TokenWF.createToken ..) TokenWF.nil
  · exact TokenWF.nil

theorem TokenWF.tokenizeLine (line : String) (lineNumber : Nat)
    (st : TokenizerState) :
    TokenWF (BuildkiteLS.tokenizeLine line lineNumber st).1 := by
  unfold BuildkiteLS.tokenizeLine
  dsimp only
  repeat' split
  all_goals try dsimp only
  all_goals repeat' first
    | exact TokenWF.nil
    | exact TokenWF.createToken ..
    | exact TokenWF.parseStepContent ..
    | apply TokenWF.append

theorem TokenWF.encodeChunks (l : List Nat) (prevLine prevStart : Nat)
    (h : TokenWF l) :
    TokenWF (BuildkiteLS.encodeChunks prevLine prevStart l).1 := by
  induction h generalizing prevLine prevStart with
  | nil => exact TokenWF.nil
  | chunk a b c ty mo rest hty hmo _ ih =>
    have heq : (BuildkiteLS.encodeChunks prevLine prevStart
        (a :: b :: c :: ty :: mo :: rest)).1 =
        u32sub a prevLine ::
          (if u32sub a prevLine = 0 then u32sub b prevStart else b) ::
          c :: ty :: mo ::
          (BuildkiteLS.encodeChunks a b rest).1 := rfl
    rw [heq]
    exact TokenWF.chunk _ _ _ _ _ _ hty hmo (ih a b)

theorem TokenWF.genRangeLoop (lines : List String) :
    ∀ (st : TokenizerState) (prevLine prevStart lineIndex
        startLineOffset : Nat),
      TokenWF (BuildkiteLS.genRangeLoop st prevLine prevStart lineIndex
        startLineOffset lines) := by
  induction lines with
  | nil => intro st pl ps li off; exact TokenWF.nil
  | cons line rest ih =>
    intro st pl ps li off
    show TokenWF (_ ++ _)
    refine TokenWF.append ?_ (ih ..)
    exact TokenWF.encodeChunks _ _ _ (TokenWF.tokenizeLine ..)

theorem TokenWF.length_mod (l : List Nat) (h : TokenWF l) :
    l.length % 5 = 0 := by
  induction h with
  | nil => rfl
  | chunk a b c ty mo rest hty hmo _ ih =>
    simp only [List.length_cons]
    omega

theorem TokenWF.getD_lt (l : List Nat) (h : TokenWF l) :
    ∀ k : Nat, 5 * k + 4 < l.length →
      l.getD (5 * k + 3) 0 < 8 ∧ l.getD (5 * k + 4) 0 < 8 := by
  induction h with
  | nil => intro k hk; simp at hk
  | chunk a b c ty mo rest hty hmo _ ih =>
    intro k hk
    cases k with
    | zero => exact ⟨hty, hmo⟩
    | succ k =>
      have e3 : 5 * (k + 1) + 3 = 5 * k + 3 + 1 + 1 + 1 + 1 + 1 := by omega
      have e4 : 5 * (k + 1) + 4 = 5 * k + 4 + 1 + 1 + 1 + 1 + 1 := by omega
      rw [e3, e4]
      simp only [List.getD_cons_succ]
      refine ih k ?_
      simp only [List.length_cons] at hk
      omega

/-- C10.  For every list of document lines and every start-line offset,
the generated semantic-token stream has length a multiple of 5, and in
every 5-tuple the token-type index and the modifier bits are below 8
(within the 8-entry legend and the 3 defined modifier bits). -/
theorem semanticTokens_wellFormed (lines : List String)
    (startLineOffset : Nat) :
    (generateSemanticTokensForRange lines startLineOffset).length % 5 = 0 ∧
      ∀ k : Nat,
        5 * k + 4 <
            (generateSemanticTokensForRange lines startLineOffset).length →
          (generateSemanticTokensForRange lines startLineOffset).getD
              (5 * k + 3) 0 < 8 ∧
            (generateSemanticTokensForRange lines startLineOffset).getD
              (5 * k + 4) 0 < 8 := by
  have hwf : TokenWF (generateSemanticTokensForRange lines startLineOffset) :=
    TokenWF.genRangeLoop ..
  exact ⟨TokenWF.length_mod _ hwf, TokenWF.getD_lt _ hwf⟩

/-- Witness for C10: on a one-line `steps:` document two tokens are
produced and the first tuple is in range. -/
theorem semanticTokens_wellFormed_witness :
    (generateSemanticTokensForRange ["steps:"] 0).getD 3 0 < 8 ∧
      (generateSemanticTokensForRange ["steps:"] 0).getD 4 0 < 8 :=
  (semanticTokens_wellFormed ["steps:"] 0).2 0 (by decide)


end BuildkiteLS
